import Mathlib

/-!
A shallow embedding of the segregated-fits allocator in src/mm.c.

Memory is modelled as a word-addressed store (one natural number per
64-bit word), with byte addresses that are always multiples of 8 at every
use site, exactly as in the C code (WSIZE = sizeof(void*) = 8).  The heap
region starts at the model base address HEAPLO (the C heap's low address);
addresses below HEAPLO model memory outside the heap (in particular the
null pointer 0).  The sbrk primitive is modelled with an explicit budget:
a call succeeds exactly when the requested number of bytes is still
available, mirroring a fixed maximum heap size.

Loops in the C source (free-list walks, the allocator's class scan, the
checker's traversals) are modelled with explicit fuel; a `none` result of
a fueled function means the corresponding C loop did not terminate within
the fuel.  Machine words are naturals; no claim below exercises 64-bit
wraparound, and the two places where C performs modular arithmetic that
could matter (the size mask in GET_SIZE, the size_t subtraction in place)
carry the explicit `% 2 ^ 64`.
-/

namespace MM

/-- The heap: a word store (index = byte address / 8), the number of bytes
obtained from sbrk so far, and the remaining sbrk budget in bytes. -/
structure Heap where
  mem : Nat → Nat
  hsize : Nat
  budget : Nat

/-- Model base address of the heap (the value of mem_heap_lo(); an
arbitrary word-aligned constant, chosen above the low addresses that model
non-heap memory such as the null page). -/
def HEAPLO : Nat := 800

/-- WSIZE: word size = sizeof(void *) = 8 on the 64-bit target. -/
def WSIZE : Nat := 8

/-- DSIZE: double word. -/
def DSIZE : Nat := 2 * WSIZE

/-- CHUNKSIZE: default heap extension, (1<<12) + DSIZE. -/
def CHUNKSIZE : Nat := (1 <<< 12) + DSIZE

/-- INITSIZE: initial extension, (1<<7) + DSIZE. -/
def INITSIZE : Nat := (1 <<< 7) + DSIZE

/-- LISTSIZE: number of free lists. -/
def LISTSIZE : Nat := 16

/-- THRESHOLD: placement-policy tuning constant. -/
def THRESHOLD : Nat := 7

/-- MAX macro. -/
def MAX (x y : Nat) : Nat := if x > y then x else y

/-- ALIGN macro: round up to a multiple of ALIGNMENT = sizeof(void*) = 8. -/
def ALIGNC (size : Nat) : Nat := (size + (WSIZE - 1)) / WSIZE * WSIZE

/-- PACK(size, alloc): size | alloc.  For an 8-aligned size and an
allocation bit, bitwise or coincides with addition. -/
def PACK (size alloc : Nat) : Nat := size + alloc

/-- GET(p): read the word at byte address p (p is word-aligned at every
use site). -/
def GET (h : Heap) (p : Nat) : Nat := h.mem (p / 8)

/-- PUT(p, val): write the word at byte address p. -/
def PUT (h : Heap) (p v : Nat) : Heap :=
  { h with mem := fun i => if i = p / 8 then v else h.mem i }

/-- GET_SIZE(p) = GET(p) & ~0x7 on 64-bit words: clear the three low bits
of the stored word. -/
def GET_SIZE (h : Heap) (p : Nat) : Nat := GET h p % 2 ^ 64 / 8 * 8

/-- GET_ALLOC(p) = GET(p) & 0x1. -/
def GET_ALLOC (h : Heap) (p : Nat) : Nat := GET h p % 2

/-- HDRP(bp): header address of the block with payload pointer bp. -/
def HDRP (bp : Nat) : Nat := bp - WSIZE

/-- FTRP(bp): footer address, via the block's own header size. -/
def FTRP (h : Heap) (bp : Nat) : Nat := bp + GET_SIZE h (HDRP bp) - DSIZE

/-- NEXT_BLKP(bp): payload pointer of the next physical block. -/
def NEXT_BLKP (h : Heap) (bp : Nat) : Nat := bp + GET_SIZE h (bp - WSIZE)

/-- PREV_BLKP(bp): payload pointer of the previous physical block, via its
footer. -/
def PREV_BLKP (h : Heap) (bp : Nat) : Nat := bp - GET_SIZE h (bp - DSIZE)

/-- PRED_BLKP(bp): the predecessor pointer stored in a free block. -/
def PRED_BLKP (h : Heap) (bp : Nat) : Nat := GET h bp

/-- SUCC_BLKP(bp): the successor pointer stored in a free block. -/
def SUCC_BLKP (h : Heap) (bp : Nat) : Nat := GET h (bp + WSIZE)

/-- The global heap_ptr after mm_init: it is set once to the prologue
payload, heap start + (LISTSIZE + 2) * WSIZE, and never changed. -/
def heap_ptr : Nat := HEAPLO + (LISTSIZE + 2) * WSIZE

/-- freelists(index): address of the list-head slot for a class. -/
def freelists (index : Nat) : Nat := heap_ptr - (LISTSIZE + 1 - index) * WSIZE

/-- mem_sbrk(n): extend the heap by n bytes; returns the old break (the
first byte of the new region) or fails when the budget is exhausted. -/
def mem_sbrk (h : Heap) (n : Nat) : Option (Heap × Nat) :=
  if n ≤ h.budget then
    some ({ h with hsize := h.hsize + n, budget := h.budget - n }, HEAPLO + h.hsize)
  else none

/-- align_size: round a request up to the 4-word minimum block size, or to
an 8-aligned size with room for header and footer. -/
def align_size (size : Nat) : Nat :=
  if size ≤ DSIZE then 2 * DSIZE else ALIGNC (size + DSIZE)

/-- The loop of index_of: for (curr = 4*WSIZE; curr < (4*WSIZE)<<(LISTSIZE-1);
curr *= 2) { if (curr >= size) break; ++index }.  The loop body runs at
most 15 times, so fuel 16 is never exhausted. -/
def index_of_loop (size : Nat) : Nat → Nat → Nat → Nat
  | 0, _, index => index
  | fuel + 1, curr, index =>
    if curr < (4 * WSIZE) <<< (LISTSIZE - 1) then
      if curr ≥ size then index
      else index_of_loop size fuel (curr * 2) (index + 1)
    else index

/-- index_of: class index of a block size. -/
def index_of (size : Nat) : Nat := index_of_loop size 16 (4 * WSIZE) 0

/-- The search loop of add_free: walk from curr while
(curr != NULL && size > GET_SIZE(HDRP(curr))), tracking pred.  Returns the
final (pred, curr) pair. -/
def add_find (h : Heap) (size : Nat) : Nat → Nat → Nat → Option (Nat × Nat)
  | 0, _, _ => none
  | fuel + 1, pred, curr =>
    if curr ≠ 0 ∧ size > GET_SIZE h (HDRP curr) then
      add_find h size fuel curr (SUCC_BLKP h curr)
    else some (pred, curr)

/-- add_free(bp, size): insert a free block into its class list, keeping
the list in ascending size order. -/
def add_free (h : Heap) (bp size fuel : Nat) : Option Heap :=
  let index := index_of size
  match add_find h size fuel (GET h (freelists index)) (GET h (freelists index)) with
  | none => none
  | some (pred, curr) =>
    if GET h (freelists index) = 0 then
      -- possibility 1: free list is empty
      some (PUT (PUT (PUT h bp 0) (bp + WSIZE) 0) (freelists index) bp)
    else if curr = 0 then
      -- possibility 2: add at the end of the list
      some (PUT (PUT (PUT h bp pred) (bp + WSIZE) 0) (pred + WSIZE) bp)
    else if curr = GET h (freelists index) then
      -- possibility 3: curr is the first block in the list
      some (PUT (PUT (PUT (PUT h bp 0) (bp + WSIZE) curr) curr bp) (freelists index) bp)
    else
      -- possibility 4: curr is in the middle of the list
      some (PUT (PUT (PUT (PUT h bp pred) (bp + WSIZE) curr) curr bp) (pred + WSIZE) bp)

/-- pop_free(bp): unlink a block from its free list, by the four
predecessor/successor null-combinations. -/
def pop_free (h : Heap) (bp : Nat) : Heap :=
  let index := index_of (GET_SIZE h (HDRP bp))
  if PRED_BLKP h bp = 0 then
    if SUCC_BLKP h bp = 0 then
      PUT h (freelists index) 0
    else
      let h1 := PUT h (freelists index) (SUCC_BLKP h bp)
      PUT h1 (SUCC_BLKP h1 bp) 0
  else
    if SUCC_BLKP h bp = 0 then
      PUT h (PRED_BLKP h bp + WSIZE) 0
    else
      let h1 := PUT h (PRED_BLKP h bp + WSIZE) (SUCC_BLKP h bp)
      PUT h1 (SUCC_BLKP h1 bp) (PRED_BLKP h1 bp)

/-- coalesce(bp): merge with free physical neighbours.  Every macro
occurrence is re-read from the heap at its program point, as in C. -/
def coalesce (h : Heap) (bp fuel : Nat) : Option (Heap × Nat) :=
  let prev_free := GET_ALLOC h (HDRP (PREV_BLKP h bp)) = 0
  let next_free := GET_ALLOC h (HDRP (NEXT_BLKP h bp)) = 0
  let size := GET_SIZE h (HDRP bp)
  if ¬ prev_free ∧ ¬ next_free then some (h, bp)
  else
    let h1 := pop_free h bp
    let s1 : Heap × Nat × Nat :=
      if prev_free then
        let h2 := pop_free h1 (PREV_BLKP h1 bp)
        let sz := size + GET_SIZE h2 (HDRP (PREV_BLKP h2 bp))
        let h3 := PUT h2 (FTRP h2 bp) (PACK sz 0)
        let h4 := PUT h3 (HDRP (PREV_BLKP h3 bp)) (PACK sz 0)
        (h4, PREV_BLKP h4 bp, sz)
      else (h1, bp, size)
    let h5 := s1.1
    let bp1 := s1.2.1
    let sz1 := s1.2.2
    let s2 : Heap × Nat :=
      if next_free then
        let h6 := pop_free h5 (NEXT_BLKP h5 bp1)
        let sz2 := sz1 + GET_SIZE h6 (HDRP (NEXT_BLKP h6 bp1))
        let h7 := PUT h6 (FTRP h6 (NEXT_BLKP h6 bp1)) (PACK sz2 0)
        let h8 := PUT h7 (HDRP bp1) (PACK sz2 0)
        (h8, sz2)
      else (h5, sz1)
    (add_free s2.1 bp1 s2.2 fuel).map (fun h9 => (h9, bp1))

/-- place_fb: write a front part of size fsize with allocation bit alloc
and a back part of size bsize with the opposite bit. -/
def place_fb (h : Heap) (bp fsize bsize alloc : Nat) : Heap :=
  let h1 := PUT h (HDRP bp) (PACK fsize alloc)
  let h2 := PUT h1 (FTRP h1 bp) (PACK fsize alloc)
  let h3 := PUT h2 (HDRP (NEXT_BLKP h2 bp)) (PACK bsize (1 - alloc))
  PUT h3 (FTRP h3 (NEXT_BLKP h3 bp)) (PACK bsize (1 - alloc))

/-- place(bp, size): carve the payload out of the free block bp.  The
size_t subtraction total_size - size is modulo 2^64. -/
def place (h : Heap) (bp size fuel : Nat) : Option (Heap × Nat) :=
  let total_size := GET_SIZE h (HDRP bp)
  let rem_size := (2 ^ 64 + total_size - size) % 2 ^ 64
  let h1 := pop_free h bp
  if rem_size < 4 * WSIZE then
    -- case 1: remaining space below the minimal block size
    let h2 := PUT h1 (HDRP bp) (PACK total_size 1)
    let h3 := PUT h2 (FTRP h2 bp) (PACK total_size 1)
    some (h3, bp)
  else if rem_size ≥ THRESHOLD * size then
    -- case 2: front-load the payload, free the remainder behind it
    let h2 := place_fb h1 bp size rem_size 1
    (add_free h2 (NEXT_BLKP h2 bp) rem_size fuel).map (fun h3 => (h3, bp))
  else
    -- case 3: back-load the payload, free the remainder in front
    let h2 := place_fb h1 bp rem_size size 0
    (add_free h2 bp rem_size fuel).map (fun h3 => (h3, NEXT_BLKP h3 bp))

/-- extend_heap(size): grow the heap, plant the new free block and the new
epilogue, register the block and coalesce it.  A failed sbrk returns the
null pointer with the heap untouched, as in C. -/
def extend_heap (h : Heap) (size fuel : Nat) : Option (Heap × Nat) :=
  let size := ALIGNC size
  match mem_sbrk h size with
  | none => some (h, 0)
  | some (h1, bp) =>
    let h2 := PUT h1 (HDRP bp) (PACK size 0)
    let h3 := PUT h2 (FTRP h2 bp) (PACK size 0)
    let h4 := PUT h3 (HDRP (NEXT_BLKP h3 bp)) (PACK 0 1)
    match add_free h4 bp size fuel with
    | none => none
    | some h5 => coalesce h5 bp fuel

/-- The class-scan loop of mm_malloc: find the first class whose head
exists and strictly exceeds the request; return that head (0 if none). -/
def find_loop (h : Heap) (size : Nat) : Nat → Nat → Nat
  | 0, _ => 0
  | fuel + 1, index =>
    if index < LISTSIZE then
      if GET h (freelists index) ≠ 0 ∧
          GET_SIZE h (HDRP (GET h (freelists index))) > size then
        GET h (freelists index)
      else find_loop h size fuel (index + 1)
    else 0

/-- mm_malloc.  The returned pointer is 0 for the C NULL result. -/
def mm_malloc (h : Heap) (size fuel : Nat) : Option (Heap × Nat) :=
  if size = 0 then some (h, 0)
  else
    let size := align_size size
    let bp := find_loop h size 16 0
    if bp = 0 then
      match extend_heap h (MAX size CHUNKSIZE) fuel with
      | none => none
      | some (h1, bp1) =>
        if bp1 = 0 then some (h1, 0) else place h1 bp1 size fuel
    else place h bp size fuel

/-- mm_free. -/
def mm_free (h : Heap) (bp fuel : Nat) : Option Heap :=
  let size := GET_SIZE h (HDRP bp)
  let h1 := PUT h (HDRP bp) (PACK size 0)
  let h2 := PUT h1 (FTRP h1 bp) (PACK size 0)
  match add_free h2 bp size fuel with
  | none => none
  | some h3 => (coalesce h3 bp fuel).map (fun r => r.1)

/-- Word-wise copy of n words, ascending, as memcpy over the 8-aligned
regions the allocator passes (the C call copies GET_SIZE(HDRP(bp)) bytes,
always a multiple of 8). -/
def memcpyW (h : Heap) (dst src : Nat) : Nat → Heap
  | 0 => h
  | n + 1 => memcpyW (PUT h dst (GET h src)) (dst + 8) (src + 8) n

/-- mm_realloc.  rem_size is a C int, modelled as an integer. -/
def mm_realloc (h : Heap) (bp size0 fuel : Nat) : Option (Heap × Nat) :=
  if size0 = 0 then some (h, 0)
  else
    let size := align_size size0
    if GET_SIZE h (HDRP bp) ≥ size then some (h, bp)
    else
      let next_epi := GET_SIZE h (HDRP (NEXT_BLKP h bp)) = 0
      let next_free := GET_ALLOC h (HDRP (NEXT_BLKP h bp)) = 0
      if next_free ∨ next_epi then
        -- case 1: next blocks are usable
        let rem_size : Int :=
          (GET_SIZE h (HDRP bp) : Int) + GET_SIZE h (HDRP (NEXT_BLKP h bp)) - size
        let grow : Heap → Int → Option (Heap × Nat) := fun h1 rem =>
          -- case 1-b: retag the merged span as one allocated block
          let h2 := pop_free h1 (NEXT_BLKP h1 bp)
          let newsz := size + rem.toNat
          let h3 := PUT h2 (HDRP bp) (PACK newsz 1)
          let h4 := PUT h3 (FTRP h3 bp) (PACK newsz 1)
          some (h4, bp)
        if rem_size < 0 then
          -- case 1-a: usable but not enough, extend first
          match extend_heap h (MAX CHUNKSIZE (-rem_size).toNat) fuel with
          | none => none
          | some (h1, p1) =>
            if p1 = 0 then some (h1, 0)
            else grow h1 (rem_size + (MAX CHUNKSIZE (-rem_size).toNat : Nat))
        else grow h rem_size
      else
        -- case 2: relocate: malloc, copy, free the old block
        match mm_malloc h size fuel with
        | none => none
        | some (h1, new_bp) =>
          let h2 := memcpyW h1 new_bp bp (GET_SIZE h1 (HDRP bp) / 8)
          match mm_free h2 bp fuel with
          | none => none
          | some h3 => some (h3, new_bp)

/-- The head-initialisation loop of mm_init: zero the LISTSIZE list-head
slots at base + WSIZE .. base + LISTSIZE * WSIZE. -/
def init_heads (h : Heap) (base : Nat) : Nat → Heap
  | 0 => h
  | i + 1 => PUT (init_heads h base i) (base + (i + 1) * WSIZE) 0

/-- mm_init, starting from an empty address space with the given sbrk
budget.  Returns the initialised heap, or none on failure (C returns -1). -/
def mm_init (budget fuel : Nat) : Option Heap :=
  let h0 : Heap := ⟨fun _ => 0, 0, budget⟩
  match mem_sbrk h0 ((LISTSIZE + 4) * WSIZE) with
  | none => none
  | some (h1, base) =>
    let h2 := PUT h1 base 0
    let h3 := PUT h2 (base + (LISTSIZE + 1) * WSIZE) (PACK DSIZE 1)
    let h4 := PUT h3 (base + (LISTSIZE + 2) * WSIZE) (PACK DSIZE 1)
    let h5 := PUT h4 (base + (LISTSIZE + 3) * WSIZE) (PACK 0 1)
    let h6 := init_heads h5 base LISTSIZE
    match extend_heap h6 INITSIZE fuel with
    | none => none
    | some (h7, p) => if p = 0 then none else some h7

/-! ## The heap consistency checker (mm_check, compiled under DEBUG) -/

/-- The inner while loop of mm_check's free-list scan: follow successor
pointers from bp, counting nodes and summing their sizes.  `some none`
reports a list entry whose allocated bit is set (a checker failure);
`none` is loop divergence. -/
def chk_free_walk (h : Heap) : Nat → Nat → Option (Option (Int × Nat))
  | 0, _ => none
  | fuel + 1, bp =>
    let nxt := SUCC_BLKP h bp
    if nxt = 0 then some (some (0, 0))
    else if GET_ALLOC h (HDRP nxt) = 1 then some none
    else (chk_free_walk h fuel nxt).map
      (Option.map (fun cs => (cs.1 + 1, cs.2 + GET_SIZE h (HDRP nxt))))

/-- The for loop of mm_check over the first n free lists: total node count
and total free size, visiting each non-empty list's head and then its
successor chain. -/
def chk_lists (h : Heap) (fuel : Nat) : Nat → Option (Option (Int × Nat))
  | 0 => some (some (0, 0))
  | i + 1 =>
    match chk_lists h fuel i with
    | none => none
    | some none => some none
    | some (some (c, s)) =>
      if GET h (freelists i) = 0 then some (some (c, s))
      else
        let head := GET h (freelists i)
        if GET_ALLOC h (HDRP head) = 1 then some none
        else
          (chk_free_walk h fuel head).map
            (Option.map (fun cs =>
              (c + 1 + cs.1, s + GET_SIZE h (HDRP head) + cs.2)))

/-- The physical walk of mm_check: from the prologue to the heap top,
decrementing the list count on free blocks, tracking the consec counter
exactly as the C code does (including the unconditional decrement after
the check), and summing free and allocated sizes. -/
def chk_phys (h : Heap) : Nat → Nat → Int → Int → Nat → Nat → Option (Option (Int × Nat × Nat))
  | 0, _, _, _, _, _ => none
  | fuel + 1, bp, count, consec, pld, fre =>
    if bp < HEAPLO + h.hsize - 1 then
      if GET_ALLOC h (HDRP bp) = 0 then
        if consec + 1 ≥ 2 then some none
        else chk_phys h fuel (NEXT_BLKP h bp) (count - 1) (consec + 1 - 1) pld
          (fre + GET_SIZE h (HDRP bp))
      else
        if consec ≥ 2 then some none
        else chk_phys h fuel (NEXT_BLKP h bp) count (consec - 1)
          (pld + GET_SIZE h (HDRP bp)) fre
    else some (some (count, pld, fre))

/-- mm_check: prologue and epilogue integrity, list-resident blocks marked
free, free-list census against the physical walk, the contiguity counter,
explicit versus implicit free totals, and the final size accounting. -/
def mm_check (h : Heap) (fuel : Nat) : Option Bool :=
  if GET_SIZE h (HDRP heap_ptr) ≠ DSIZE ∨ GET_ALLOC h (HDRP heap_ptr) = 0 then some false
  else if GET_SIZE h (HEAPLO + h.hsize - 1 - WSIZE + 1) ≠ 0 ∨
      GET_ALLOC h (HEAPLO + h.hsize - 1 - WSIZE + 1) = 0 then some false
  else
    match chk_lists h fuel LISTSIZE with
    | none => none
    | some none => some false
    | some (some (count, fre_exp)) =>
      match chk_phys h fuel heap_ptr count 0 0 0 with
      | none => none
      | some none => some false
      | some (some (count1, pld, fre_imp)) =>
        if count1 < 0 then some false
        else if count1 > 0 then some false
        else if fre_exp ≠ fre_imp then some false
        else if fre_exp + pld + (LISTSIZE + 2) * WSIZE > h.hsize then some false
        else some true

/-! ## Observation helpers used by the theorems -/

/-- Walk a free list along successor pointers (fuel-bounded). -/
def walkList (h : Heap) : Nat → Nat → Option (List Nat)
  | 0, bp => if bp = 0 then some [] else none
  | fuel + 1, bp =>
    if bp = 0 then some []
    else (walkList h fuel (SUCC_BLKP h bp)).map (fun l => bp :: l)

/-- A successor-linked segment from s through the nodes of l, exiting at
pointer m; nodes are non-null. -/
def succSeg (h : Heap) : Nat → List Nat → Nat → Prop
  | s, [], m => s = m
  | s, x :: t, m => s = x ∧ x ≠ 0 ∧ succSeg h (SUCC_BLKP h x) t m

/-- A complete successor chain: a segment ending in the null pointer. -/
def succChain (h : Heap) (s : Nat) (l : List Nat) : Prop := succSeg h s l 0

/-- Two addresses at least 24 bytes apart (distinct free-list nodes are
whole blocks of at least minimum size, so this holds between them). -/
def apart (a b : Nat) : Prop := a + 24 ≤ b ∨ b + 24 ≤ a

/-- Two heaps agree on the words at the given byte addresses. -/
def agreeOn (h1 h2 : Heap) (ws : List Nat) : Prop := ∀ a ∈ ws, GET h1 a = GET h2 a

/-- The header and footer words around a block and its physical
neighbours that the coalescing argument reads: bp's header, the footer
before bp, the previous block's header, the footer before the previous
block, the previous-previous header, the next block's header and the
next-next header. -/
def keyWords (h : Heap) (bp : Nat) : List Nat :=
  [HDRP bp, bp - DSIZE, HDRP (PREV_BLKP h bp), PREV_BLKP h bp - DSIZE,
   HDRP (PREV_BLKP h (PREV_BLKP h bp)), HDRP (NEXT_BLKP h bp),
   HDRP (NEXT_BLKP h (NEXT_BLKP h bp))]

/-- The fit condition of mm_malloc's class scan at class i: the list head
exists and its block size strictly exceeds the request. -/
def fitCond (h : Heap) (size i : Nat) : Prop :=
  GET h (freelists i) ≠ 0 ∧ GET_SIZE h (HDRP (GET h (freelists i))) > size

instance (h : Heap) (size i : Nat) : Decidable (fitCond h size i) := by
  unfold fitCond
  exact inferInstance

instance (a b : Nat) : Decidable (apart a b) := by
  unfold apart
  exact inferInstance

instance (h1 h2 : Heap) (ws : List Nat) : Decidable (agreeOn h1 h2 ws) := by
  unfold agreeOn
  exact inferInstance

/-! ## Concrete heaps used as failing inputs and witnesses.

All traces start from mm_init with a given sbrk budget; the getD fallback
is never taken (each step is shown to succeed in the theorems using these
heaps). -/

/-- The all-zero address space with nothing allocated. -/
def emptyHeap : Heap := ⟨fun _ => 0, 0, 0⟩

/-- Fuel that is ample for every concrete trace below. -/
def FUEL : Nat := 500

/-- Initialised heap with a large remaining budget. -/
def heap0 : Heap := (mm_init 5000 FUEL).getD emptyHeap

/-- heap0 after allocate(16); the block is at 1072, a 112-byte free block
remains at 960. -/
def heapA : Heap := ((mm_malloc heap0 16 FUEL).map (fun r => r.1)).getD emptyHeap

/-- heapA after a second allocate(16); the block is at 1040. -/
def heapB : Heap := ((mm_malloc heapA 16 FUEL).map (fun r => r.1)).getD emptyHeap

/-- heapB after a third allocate(16); the block is at 1008. -/
def heapC : Heap := ((mm_malloc heapB 16 FUEL).map (fun r => r.1)).getD emptyHeap

/-- heapC after release of the middle block 1040. -/
def heapD : Heap := (mm_free heapC 1040 FUEL).getD emptyHeap

/-- Initialised heap whose sbrk budget is exactly exhausted (304 bytes),
so that any further growth fails. -/
def heapL0 : Heap := (mm_init 304 FUEL).getD emptyHeap

/-- heapL0 after allocate(16) (block at 1072). -/
def heapL1 : Heap := ((mm_malloc heapL0 16 FUEL).map (fun r => r.1)).getD emptyHeap

/-- heapL1 after a second allocate(16) (block at 1040, whose next physical
block 1072 is allocated and not the epilogue). -/
def heapL2 : Heap := ((mm_malloc heapL1 16 FUEL).map (fun r => r.1)).getD emptyHeap

/-- heapA after allocate(17): a 40-byte block at 1032 whose next physical
block 1072 is allocated and not the epilogue. -/
def heapK : Heap := ((mm_malloc heapA 17 FUEL).map (fun r => r.1)).getD emptyHeap

/-- heapK with a recognisable payload pattern written into the three
payload words of the block at 1032. -/
def heapKP : Heap := PUT (PUT (PUT heapK 1032 111) 1040 222) 1048 333

/-- heapB after release of 1072, leaving the block at 1040 with a free
physical successor. -/
def heapM : Heap := (mm_free heapB 1072 FUEL).getD emptyHeap

/-- heapM with a recognisable payload pattern in the two payload words of
the block at 1040. -/
def heapMP : Heap := PUT (PUT heapM 1040 444) 1048 555

/-- heapA with a recognisable payload pattern in the two payload words of
the block at 1072 (whose next block is the epilogue). -/
def heapAP : Heap := PUT (PUT heapA 1072 666) 1080 777

/-- A hand-built heap whose class-2 free list holds the nodes 1000 (size
40) and 1100 (size 120), used to exercise the ordered insertion of a
block 1200 of size 96 between them. -/
def heapW8 : Heap :=
  PUT (PUT (PUT (PUT (PUT (PUT (PUT (PUT emptyHeap
    (freelists 2) 1000) 992 40) 1000 0) 1008 1100) 1092 120) 1100 1000) 1108 0) 1192 96

/-- A hand-built heap for the coalescing theorem, case merge-with-previous:
a free 48-byte block at 1000 (class 1, sole entry), the free 32-byte block
bp = 1048 (class 0, sole entry), an allocated 32-byte block at 1080, and
an allocated block in front of 1000. -/
def heapW6 : Heap :=
  PUT (PUT (PUT (PUT (PUT (PUT (PUT (PUT (PUT (PUT (PUT (PUT emptyHeap
    976 (PACK 16 1)) 984 (PACK 16 1))
    992 (PACK 48 0)) 1032 (PACK 48 0))
    1040 (PACK 32 0)) 1064 (PACK 32 0))
    1072 (PACK 32 1)) 1104 (PACK 32 1))
    (freelists 1) 1000) 1000 0) 1008 0)
    (freelists 0) 1048

/-- heapW6 updated by the internal steps of coalesce up to the point where
add_free runs: both blocks popped, the merged 80-byte span retagged free
at 1000. -/
def heapW6pre : Heap :=
  PUT (PUT (pop_free (pop_free heapW6 1048) 1000) 1064 (PACK 80 0)) 992 (PACK 80 0)

/-- The heap produced by the add_free step on heapW6pre. -/
def heapW6post : Heap := (add_free heapW6pre 1000 80 FUEL).getD emptyHeap

/-- heapW8 after the insertion of the free block 1200 (size 96) into its
class-2 list. -/
def heapW8post : Heap := (add_free heapW8 1200 96 FUEL).getD emptyHeap

/-- The heap returned by the fallback malloc inside resize(1032, 32) on
heapKP (the new block is at 960). -/
def heapK1 : Heap :=
  ((mm_malloc heapKP (align_size 32) FUEL).map (fun r => r.1)).getD emptyHeap

/-- The final heap of the relocating resize(1032, 32) on heapKP. -/
def heapK3 : Heap :=
  ((mm_realloc heapKP 1032 32 FUEL).map (fun r => r.1)).getD emptyHeap

/-- The final heap of the in-place resize(1040, 17) on heapMP (the next
block is free and large enough, no growth needed). -/
def heapM3 : Heap :=
  ((mm_realloc heapMP 1040 17 FUEL).map (fun r => r.1)).getD emptyHeap

/-- The heap after the growth step inside resize(1072, 50) on heapAP (the
next block is the epilogue and the heap must be extended first). -/
def heapAE : Heap :=
  ((extend_heap heapAP
      (MAX CHUNKSIZE (align_size 50 -
        (GET_SIZE heapAP (HDRP 1072) + GET_SIZE heapAP (HDRP (NEXT_BLKP heapAP 1072)))))
      FUEL).map (fun r => r.1)).getD emptyHeap

/-- The final heap of the growing in-place resize(1072, 50) on heapAP. -/
def heapA3 : Heap :=
  ((mm_realloc heapAP 1072 50 FUEL).map (fun r => r.1)).getD emptyHeap

/-! ## General lemmas about the word store -/

lemma GET_PUT_self (h : Heap) (p v : Nat) : GET (PUT h p v) p = v := by
  simp [GET, PUT]

lemma GET_PUT_ne (h : Heap) (p v q : Nat) (hq : q / 8 ≠ p / 8) :
    GET (PUT h p v) q = GET h q := by
  simp [GET, PUT, hq]

lemma word_ne (a b : Nat) (hab : a + 8 ≤ b ∨ b + 8 ≤ a) : a / 8 ≠ b / 8 := by
  rcases hab with hh | hh
  · have h1 : (a + 8) / 8 ≤ b / 8 := Nat.div_le_div_right hh
    rw [Nat.add_div_right _ (by norm_num)] at h1
    omega
  · have h1 : (b + 8) / 8 ≤ a / 8 := Nat.div_le_div_right hh
    rw [Nat.add_div_right _ (by norm_num)] at h1
    omega

lemma GET_SIZE_dvd (h : Heap) (p : Nat) : 8 ∣ GET_SIZE h p := dvd_mul_left 8 _

lemma GET_SIZE_lt (h : Heap) (p : Nat) : GET_SIZE h p < 2 ^ 64 := by
  unfold GET_SIZE
  have h1 : GET h p % 2 ^ 64 < 2 ^ 64 := Nat.mod_lt _ (by norm_num)
  omega

lemma GET_SIZE_of_PACK (h : Heap) (p s a : Nat) (hg : GET h p = PACK s a)
    (h8 : 8 ∣ s) (hs : s < 2 ^ 64) (ha : a ≤ 1) : GET_SIZE h p = s := by
  unfold GET_SIZE PACK at *
  rw [hg]
  omega

lemma GET_ALLOC_of_PACK (h : Heap) (p s a : Nat) (hg : GET h p = PACK s a)
    (h2 : 2 ∣ s) (ha : a ≤ 1) : GET_ALLOC h p = a := by
  unfold GET_ALLOC PACK at *
  rw [hg]
  omega

/-! ## C1, C2, C4, C5: behaviour on concrete reachable heaps -/

set_option maxRecDepth 10000

/-- C1.  The claim says that when resize fails and returns null the
original block is left valid and has not been freed.  On the relocate
path the code does not check the fallback mm_malloc result: in heapL2
(budget exhausted), the block 1040 is allocated, its next physical block
is allocated and not the epilogue, and mm_realloc(1040, 100) returns null
yet leaves 1040 marked free and coalesced into the free block at 960,
which now heads class 2.  This evaluates the code at the failing input of
the code_bug record. -/
theorem c1_realloc_failure_frees_original :
    GET_ALLOC heapL2 (HDRP 1040) = 1 ∧
    GET_ALLOC heapL2 (HDRP (NEXT_BLKP heapL2 1040)) = 1 ∧
    GET_SIZE heapL2 (HDRP (NEXT_BLKP heapL2 1040)) ≠ 0 ∧
    heapL2.budget = 0 ∧
    (mm_realloc heapL2 1040 100 FUEL).map
      (fun r => (r.2, GET_ALLOC r.1 (HDRP 1040), GET_SIZE r.1 (HDRP 960),
        GET_ALLOC r.1 (HDRP 960), GET r.1 (freelists 2))) =
      some (0, 0, 112, 0, 960) := by
  decide

/-- C2.  The claim says resize(p, 0) frees the block and returns null.
The code returns null without freeing: on heapA the allocated block 1072
stays allocated, the heap is returned unchanged, and 1072 appears in no
free list.  This evaluates the code at the failing input of the code_bug
record. -/
theorem c2_realloc_zero_leaves_allocated :
    mm_realloc heapA 1072 0 FUEL = some (heapA, 0) ∧
    GET_ALLOC heapA (HDRP 1072) = 1 ∧
    (List.range LISTSIZE).all
      (fun i => ((walkList heapA FUEL (GET heapA (freelists i))).getD [1072]).all
        (fun n => n != 1072)) = true := by
  refine ⟨rfl, by decide, by decide⟩

/-- C4 counterexample.  Three allocate(16) calls yield the physically
contiguous blocks 1072, 1040, 1008; after release(1040) the next
allocate(16) returns 960 (the leftover free block), not 1040, refuting
the claim that the freed middle block's address is reused. -/
theorem c4_counterexample :
    (mm_malloc heap0 16 FUEL).map (fun r => r.2) = some 1072 ∧
    (mm_malloc heapA 16 FUEL).map (fun r => r.2) = some 1040 ∧
    (mm_malloc heapB 16 FUEL).map (fun r => r.2) = some 1008 ∧
    NEXT_BLKP heapC 1008 = 1040 ∧ NEXT_BLKP heapC 1040 = 1072 ∧
    (mm_free heapC 1040 FUEL).isSome = true ∧
    GET_ALLOC heapD (HDRP 1040) = 0 ∧
    (mm_malloc heapD 16 FUEL).map (fun r => r.2) = some 960 ∧
    (960 : Nat) ≠ 1040 := by
  decide

/-- C4 amended.  After the three contiguous allocate(16) calls and
release(p2 = 1040), the next allocate(16) does not return p2: the freed
block has size exactly 32 = align_size 16, the scan requires the class
head's size to strictly exceed the request, so class 0 headed by 1040 is
skipped and the allocator returns the 48-byte leftover block 960 from
class 1 instead. -/
theorem c4_exact_fit_skipped :
    GET heapD (freelists 0) = 1040 ∧
    GET_SIZE heapD (HDRP 1040) = align_size 16 ∧
    ¬ fitCond heapD (align_size 16) 0 ∧
    GET heapD (freelists 1) = 960 ∧
    GET_SIZE heapD (HDRP 960) = 48 ∧
    fitCond heapD (align_size 16) 1 ∧
    (mm_malloc heapD 16 FUEL).map (fun r => r.2) = some 960 := by
  decide

/-- C5 counterexample.  align_size 17 = 40, which is not a multiple of the
double word 2 * WSIZE = 16, and malloc(17) on the freshly initialised heap
creates a reachable block whose recorded header size is 40. -/
theorem c5_counterexample :
    align_size 17 = 40 ∧
    ¬ (2 * WSIZE ∣ align_size 17) ∧
    (mm_malloc heap0 17 FUEL).map (fun r => GET_SIZE r.1 (HDRP r.2)) = some 40 ∧
    ¬ (2 * WSIZE ∣ 40) := by
  decide

/-- C5 amended.  Block sizes are kept multiples of the word-size alignment
unit WSIZE = sizeof(void*) = 8, not of the double word: align_size always
returns a multiple of WSIZE, and every size decoded from a header or
footer word by GET_SIZE is a multiple of WSIZE. -/
theorem c5_sizes_word_aligned :
    (∀ s, WSIZE ∣ align_size s) ∧ (∀ (h : Heap) (p : Nat), WSIZE ∣ GET_SIZE h p) := by
  constructor
  · intro s
    unfold align_size ALIGNC WSIZE DSIZE
    split
    · decide
    · exact dvd_mul_left 8 _
  · intro h p
    exact GET_SIZE_dvd h p

/-! ## C7, C9: the class scan and the null-return conditions of malloc -/

lemma find_loop_none (h : Heap) (size : Nat) :
    ∀ (f i : Nat), (∀ j, i ≤ j → j < LISTSIZE → ¬ fitCond h size j) →
      find_loop h size f i = 0 := by
  intro f
  induction f with
  | zero => intro i _; rfl
  | succ f ih =>
    intro i hi
    unfold find_loop
    split
    · rename_i hlt
      split
      · rename_i hcond
        exact absurd hcond (hi i le_rfl hlt)
      · exact ih (i + 1) (fun j hj1 hj2 => hi j (by omega) hj2)
    · rfl

lemma find_loop_found (h : Heap) (size : Nat) :
    ∀ (f i k : Nat), i ≤ k → k < LISTSIZE → k < i + f → fitCond h size k →
      (∀ j, i ≤ j → j < k → ¬ fitCond h size j) →
      find_loop h size f i = GET h (freelists k) := by
  intro f
  induction f with
  | zero => intro i k h1 _ h3 _ _; omega
  | succ f ih =>
    intro i k h1 h2 h3 h4 h5
    unfold find_loop
    have hilt : i < LISTSIZE := by omega
    rw [if_pos hilt]
    by_cases hik : i = k
    · subst hik
      split
      · rfl
      · rename_i hcond
        exact absurd h4 hcond
    · have hni : ¬ fitCond h size i := h5 i le_rfl (by omega)
      split
      · rename_i hcond
        exact absurd hcond hni
      · exact ih (i + 1) k (by omega) h2 (by omega) h4
          (fun j hj1 hj2 => h5 j (by omega) hj2)

/-- C7.  The candidate of malloc(size) for size > 0 is chosen by scanning
class indices upward and taking, immediately, the head of the first class
satisfying the fit condition (non-empty, head size strictly above the
aligned request): if class k is the least such class the result is
place applied to that head on the unchanged heap; if no class qualifies,
the heap is grown by max(aligned_size, CHUNKSIZE) via extend_heap (which
coalesces the new region) and the resulting block is placed. -/
theorem c7_first_fit_scan :
    (∀ (h : Heap) (s fuel k : Nat), 0 < s → k < LISTSIZE →
      fitCond h (align_size s) k →
      (∀ j, j < k → ¬ fitCond h (align_size s) j) →
      mm_malloc h s fuel = place h (GET h (freelists k)) (align_size s) fuel) ∧
    (∀ (h : Heap) (s fuel : Nat), 0 < s →
      (∀ j, j < LISTSIZE → ¬ fitCond h (align_size s) j) →
      mm_malloc h s fuel =
        match extend_heap h (MAX (align_size s) CHUNKSIZE) fuel with
        | none => none
        | some (h1, bp1) =>
          if bp1 = 0 then some (h1, 0) else place h1 bp1 (align_size s) fuel) := by
  constructor
  · intro h s fuel k hs hk hfit hleast
    have hf : find_loop h (align_size s) 16 0 = GET h (freelists k) :=
      find_loop_found h (align_size s) 16 0 k (Nat.zero_le k) hk
        (by unfold LISTSIZE at hk; omega) hfit
        (fun j _ hj2 => hleast j hj2)
    have hbp : GET h (freelists k) ≠ 0 := hfit.1
    unfold mm_malloc
    rw [if_neg (by omega : ¬ s = 0)]
    simp only [hf]
    rw [if_neg hbp]
  · intro h s fuel hs hnone
    have hf : find_loop h (align_size s) 16 0 = 0 :=
      find_loop_none h (align_size s) 16 0 (fun j _ hj2 => hnone j hj2)
    unfold mm_malloc
    rw [if_neg (by omega : ¬ s = 0)]
    simp only [hf, if_true]

/-- C7 witness: on heapA with request 16 the least fitting class is 2 and
malloc takes its head immediately; on heapL2 with request 100 no class
fits and malloc goes through the growth path. -/
theorem c7_first_fit_scan_witness :
    mm_malloc heapA 16 FUEL = place heapA (GET heapA (freelists 2)) (align_size 16) FUEL ∧
    mm_malloc heapL2 100 FUEL =
      match extend_heap heapL2 (MAX (align_size 100) CHUNKSIZE) FUEL with
      | none => none
      | some (h1, bp1) =>
        if bp1 = 0 then some (h1, 0) else place h1 bp1 (align_size 100) FUEL := by
  constructor
  · exact c7_first_fit_scan.1 heapA 16 FUEL 2 (by decide) (by decide) (by decide)
      (by decide)
  · exact c7_first_fit_scan.2 heapL2 100 FUEL (by decide) (by decide)

lemma place_ptr_ne_zero (h : Heap) (bp size fuel : Nat) (hbp : bp ≠ 0) :
    ∀ (h2 : Heap) (p : Nat), place h bp size fuel = some (h2, p) → p ≠ 0 := by
  intro h2 p hp
  simp only [place] at hp
  split at hp
  · simp only [Option.some.injEq, Prod.mk.injEq] at hp
    omega
  · split at hp
    · rw [Option.map_eq_some'] at hp
      obtain ⟨h3, _, hp2⟩ := hp
      simp only [Prod.mk.injEq] at hp2
      omega
    · rw [Option.map_eq_some'] at hp
      obtain ⟨h3, _, hp2⟩ := hp
      simp only [Prod.mk.injEq] at hp2
      have : NEXT_BLKP h3 (bp : Nat) = bp + GET_SIZE h3 (bp - WSIZE) := rfl
      omega

lemma extend_heap_sbrk_fail (h : Heap) (size fuel : Nat)
    (hb : h.budget < ALIGNC size) : extend_heap h size fuel = some (h, 0) := by
  simp only [extend_heap, mem_sbrk]
  rw [if_neg (by omega : ¬ ALIGNC size ≤ h.budget)]

/-- C9.  malloc(0) returns null with the heap unchanged (not an error);
for size > 0, if no class fits and the growth primitive fails
(budget below the aligned extension), malloc returns null with the heap
unchanged; and for size > 0 a null return implies that no class fitted
and the growth primitive failed, provided extend_heap only hands back the
null pointer on sbrk failure (the hypothesis hx, satisfied by every
well-formed heap). -/
theorem c9_malloc_null_conditions :
    (∀ (h : Heap) (fuel : Nat), mm_malloc h 0 fuel = some (h, 0)) ∧
    (∀ (h : Heap) (s fuel : Nat), 0 < s →
      find_loop h (align_size s) 16 0 = 0 →
      h.budget < ALIGNC (MAX (align_size s) CHUNKSIZE) →
      mm_malloc h s fuel = some (h, 0)) ∧
    (∀ (h h2 : Heap) (s fuel p : Nat), 0 < s →
      (∀ h3 : Heap, extend_heap h (MAX (align_size s) CHUNKSIZE) fuel = some (h3, 0) →
        h.budget < ALIGNC (MAX (align_size s) CHUNKSIZE)) →
      mm_malloc h s fuel = some (h2, p) → p = 0 →
      find_loop h (align_size s) 16 0 = 0 ∧
        h.budget < ALIGNC (MAX (align_size s) CHUNKSIZE)) := by
  refine ⟨fun h fuel => rfl, ?_, ?_⟩
  · intro h s fuel hs hf hb
    unfold mm_malloc
    rw [if_neg (by omega : ¬ s = 0)]
    simp only [hf, if_true]
    rw [extend_heap_sbrk_fail h _ fuel hb]
    rfl
  · intro h h2 s fuel p hs hx hrun hp
    subst hp
    unfold mm_malloc at hrun
    rw [if_neg (by omega : ¬ s = 0)] at hrun
    by_cases hf : find_loop h (align_size s) 16 0 = 0
    · refine ⟨hf, ?_⟩
      simp only [hf, if_true] at hrun
      rcases he : extend_heap h (MAX (align_size s) CHUNKSIZE) fuel with _ | ⟨h3, q⟩
      · simp only [he] at hrun
        exact absurd hrun (by simp)
      · simp only [he] at hrun
        by_cases hq : q = 0
        · exact hx h3 (hq ▸ he)
        · rw [if_neg hq] at hrun
          exact absurd rfl (place_ptr_ne_zero h3 q (align_size s) fuel hq h2 0 hrun)
    · simp only [if_neg hf] at hrun
      exact absurd rfl (place_ptr_ne_zero h _ (align_size s) fuel hf h2 0 hrun)

/-- C9 witness: malloc(0) on heap0; and on heapL2 (budget 0) the request
100 fits no class and the growth fails, so malloc returns null with the
heap unchanged, and the null return indeed certifies those two facts. -/
theorem c9_malloc_null_conditions_witness :
    mm_malloc heap0 0 FUEL = some (heap0, 0) ∧
    mm_malloc heapL2 100 FUEL = some (heapL2, 0) ∧
    (find_loop heapL2 (align_size 100) 16 0 = 0 ∧
      heapL2.budget < ALIGNC (MAX (align_size 100) CHUNKSIZE)) := by
  have h2 := c9_malloc_null_conditions.2.1 heapL2 100 FUEL (by decide) (by decide)
    (by decide)
  exact ⟨c9_malloc_null_conditions.1 heap0 FUEL, h2,
    c9_malloc_null_conditions.2.2 heapL2 heapL2 100 FUEL 0 (by decide)
      (fun h3 _ => by decide) h2 rfl⟩

/-! ## C10: the checker's size accounting -/

lemma chk_phys_sum (h : Heap) :
    ∀ (fuel bp : Nat) (count consec : Int) (pld fre : Nat) (count1 : Int)
      (pld1 fre1 : Nat),
      chk_phys h fuel bp count consec pld fre = some (some (count1, pld1, fre1)) →
      8 ∣ bp →
      ∃ fin : Nat, 8 ∣ fin ∧ ¬ fin < HEAPLO + h.hsize - 1 ∧ bp ≤ fin ∧
        pld1 + fre1 + bp = pld + fre + fin := by
  intro fuel
  induction fuel with
  | zero =>
    intro bp _ _ _ _ _ _ _ heq
    exact absurd heq (by simp [chk_phys])
  | succ fuel ih =>
    intro bp count consec pld fre count1 pld1 fre1 heq hdvd
    have hN : NEXT_BLKP h bp = bp + GET_SIZE h (HDRP bp) := rfl
    have hd8 : 8 ∣ GET_SIZE h (HDRP bp) := GET_SIZE_dvd h (HDRP bp)
    unfold chk_phys at heq
    by_cases hlt : bp < HEAPLO + h.hsize - 1
    · rw [if_pos hlt] at heq
      by_cases hal : GET_ALLOC h (HDRP bp) = 0
      · rw [if_pos hal] at heq
        split at heq
        · exact absurd heq (by simp)
        · obtain ⟨fin, hf1, hf2, hf3, hf4⟩ :=
            ih _ _ _ _ _ _ _ _ heq (by rw [hN]; omega)
          rw [hN] at hf3 hf4
          exact ⟨fin, hf1, hf2, by omega, by omega⟩
      · rw [if_neg hal] at heq
        split at heq
        · exact absurd heq (by simp)
        · obtain ⟨fin, hf1, hf2, hf3, hf4⟩ :=
            ih _ _ _ _ _ _ _ _ heq (by rw [hN]; omega)
          rw [hN] at hf3 hf4
          exact ⟨fin, hf1, hf2, by omega, by omega⟩
    · rw [if_neg hlt] at heq
      simp only [Option.some.injEq, Prod.mk.injEq] at heq
      exact ⟨bp, hdvd, hlt, le_rfl, by omega⟩

/-- C10.  If the checker passes (returns 1) then the sum of the free-block
bytes it counted, the allocated-block bytes it counted on the physical
walk, and the fixed overhead (LISTSIZE + 2) * WSIZE equals the heap size
exactly (for any heap whose size is word-aligned, as every sbrk-produced
heap is); equivalently, whenever the sums disagree with the heap size a
terminating checker run reports a violation. -/
theorem c10_check_size_accounting (h : Heap) (fuel : Nat)
    (h8 : 8 ∣ h.hsize) (hpos : 0 < h.hsize) :
    mm_check h fuel = some true →
    ∃ (count count1 : Int) (pld fre : Nat),
      chk_lists h fuel LISTSIZE = some (some (count, fre)) ∧
      chk_phys h fuel heap_ptr count 0 0 0 = some (some (count1, pld, fre)) ∧
      fre + pld + (LISTSIZE + 2) * WSIZE = h.hsize := by
  intro hchk
  unfold mm_check at hchk
  split at hchk
  · exact absurd hchk (by simp)
  split at hchk
  · exact absurd hchk (by simp)
  split at hchk
  · exact absurd hchk (by simp)
  · exact absurd hchk (by simp)
  rename_i count fre_exp hl
  split at hchk
  · exact absurd hchk (by simp)
  · exact absurd hchk (by simp)
  rename_i count1 pld fre_imp hp
  split at hchk
  · exact absurd hchk (by simp)
  split at hchk
  · exact absurd hchk (by simp)
  split at hchk
  · exact absurd hchk (by simp)
  rename_i hfne
  split at hchk
  · exact absurd hchk (by simp)
  rename_i hsum
  have hfeq : fre_exp = fre_imp := by
    by_contra hc
    exact hfne hc
  obtain ⟨fin, hf1, hf2, hf3, hf4⟩ :=
    chk_phys_sum h fuel heap_ptr count 0 0 0 count1 pld fre_imp hp (by decide)
  refine ⟨count, count1, pld, fre_exp, hl, by rw [hfeq]; exact hp, ?_⟩
  have hhp : heap_ptr = 944 := by decide
  have hlo : HEAPLO = 800 := by decide
  have hov : (LISTSIZE + 2) * WSIZE = 144 := by decide
  rw [hfeq, hov]
  omega

/-! ## C3: payload preservation of resize -/

lemma align_size_dvd8 (s : Nat) : 8 ∣ align_size s := by
  unfold align_size ALIGNC WSIZE DSIZE
  split
  · decide
  · exact dvd_mul_left 8 _

lemma align_size_ge32 (s : Nat) : 32 ≤ align_size s := by
  simp only [align_size, ALIGNC, DSIZE, WSIZE]
  split
  · omega
  · omega

lemma memcpyW_frame : ∀ (n : Nat) (h : Heap) (dst src q : Nat),
    (q + 8 ≤ dst ∨ dst + 8 * n ≤ q) →
    GET (memcpyW h dst src n) q = GET h q := by
  intro n
  induction n with
  | zero => intro h dst src q _; rfl
  | succ n ih =>
    intro h dst src q hq
    show GET (memcpyW (PUT h dst (GET h src)) (dst + 8) (src + 8) n) q = GET h q
    rw [ih _ _ _ _ (by omega)]
    exact GET_PUT_ne _ _ _ _ (word_ne _ _ (by omega))

lemma memcpyW_copy : ∀ (n : Nat) (h : Heap) (dst src k : Nat),
    (src + 8 * n ≤ dst ∨ dst + 8 * n ≤ src) → k < n →
    GET (memcpyW h dst src n) (dst + 8 * k) = GET h (src + 8 * k) := by
  intro n
  induction n with
  | zero => intro _ _ _ _ _ hk; omega
  | succ n ih =>
    intro h dst src k hd hk
    show GET (memcpyW (PUT h dst (GET h src)) (dst + 8) (src + 8) n) (dst + 8 * k) =
      GET h (src + 8 * k)
    cases k with
    | zero =>
      simp only [Nat.mul_zero, Nat.add_zero]
      rw [memcpyW_frame n _ _ _ dst (by omega)]
      rw [GET_PUT_self]
    | succ k =>
      have e1 : dst + 8 * (k + 1) = dst + 8 + 8 * k := by ring
      have e2 : src + 8 * (k + 1) = src + 8 + 8 * k := by ring
      rw [e1, ih _ _ _ k (by omega) (by omega), e2]
      exact GET_PUT_ne _ _ _ _ (word_ne _ _ (by omega))

/-- C3.  A successful resize to a strictly larger aligned size preserves
the payload, whether it relocates or grows in place.
Part 1 (relocate: next block allocated and not the epilogue): the run is
the malloc-copy-free composition, the copied amount is exactly
min(old block size, aligned request) = the old block size, the copy stays
strictly inside the new block's payload region (given the new block's
recorded size, which always covers the doubly-aligned request), and every
copied word of the new payload equals the old one.  The frame hypotheses
say only that the intervening malloc and free do not write into the two
payloads, which holds in every well-formed heap because those operations
write only to free blocks, boundary tags of other blocks and list heads.
Part 2 (in-place, next block free or epilogue, combined size sufficient):
the same pointer is returned and the payload words are untouched.
Part 3 (in-place after heap growth): likewise when the combined size is
insufficient and extend_heap succeeds. -/
theorem c3_resize_preserves_payload :
    (∀ (h h1 h3 : Heap) (bp s fuel p1 old : Nat),
      old = GET_SIZE h (HDRP bp) →
      s ≠ 0 →
      old < align_size s →
      GET_SIZE h (HDRP (NEXT_BLKP h bp)) ≠ 0 →
      GET_ALLOC h (HDRP (NEXT_BLKP h bp)) ≠ 0 →
      mm_malloc h (align_size s) fuel = some (h1, p1) →
      GET_SIZE h1 (HDRP bp) = old →
      align_size s + 16 ≤ GET_SIZE h1 (HDRP p1) →
      (∀ k, k < old / 8 → GET h1 (bp + 8 * k) = GET h (bp + 8 * k)) →
      (bp + old ≤ p1 ∨ p1 + old ≤ bp) →
      mm_free (memcpyW h1 p1 bp (old / 8)) bp fuel = some h3 →
      (∀ k, k < old / 8 →
        GET h3 (p1 + 8 * k) = GET (memcpyW h1 p1 bp (old / 8)) (p1 + 8 * k)) →
      mm_realloc h bp s fuel = some (h3, p1) ∧
      old = min old (align_size s) ∧
      old ≤ GET_SIZE h1 (HDRP p1) - 16 ∧
      (∀ k, k < old / 8 → GET h3 (p1 + 8 * k) = GET h (bp + 8 * k)) ∧
      (∀ q, q + 8 ≤ p1 ∨ p1 + (GET_SIZE h1 (HDRP p1) - 16) ≤ q →
        GET (memcpyW h1 p1 bp (old / 8)) q = GET h1 q)) ∧
    (∀ (h h' : Heap) (bp s fuel r : Nat),
      s ≠ 0 →
      16 ≤ bp →
      GET_SIZE h (HDRP bp) < align_size s →
      (GET_ALLOC h (HDRP (NEXT_BLKP h bp)) = 0 ∨
        GET_SIZE h (HDRP (NEXT_BLKP h bp)) = 0) →
      align_size s ≤ GET_SIZE h (HDRP bp) + GET_SIZE h (HDRP (NEXT_BLKP h bp)) →
      GET_SIZE h (HDRP bp) + GET_SIZE h (HDRP (NEXT_BLKP h bp)) < 2 ^ 64 →
      (∀ k, k < (GET_SIZE h (HDRP bp) - 16) / 8 →
        GET (pop_free h (NEXT_BLKP h bp)) (bp + 8 * k) = GET h (bp + 8 * k)) →
      mm_realloc h bp s fuel = some (h', r) →
      r = bp ∧
      (∀ k, k < (GET_SIZE h (HDRP bp) - 16) / 8 →
        GET h' (bp + 8 * k) = GET h (bp + 8 * k))) ∧
    (∀ (h hE h' : Heap) (bp s fuel pE r : Nat),
      s ≠ 0 →
      16 ≤ bp →
      GET_SIZE h (HDRP bp) < align_size s →
      (GET_ALLOC h (HDRP (NEXT_BLKP h bp)) = 0 ∨
        GET_SIZE h (HDRP (NEXT_BLKP h bp)) = 0) →
      GET_SIZE h (HDRP bp) + GET_SIZE h (HDRP (NEXT_BLKP h bp)) < align_size s →
      extend_heap h
        (MAX CHUNKSIZE (align_size s -
          (GET_SIZE h (HDRP bp) + GET_SIZE h (HDRP (NEXT_BLKP h bp))))) fuel =
        some (hE, pE) →
      pE ≠ 0 →
      GET_SIZE h (HDRP bp) + GET_SIZE h (HDRP (NEXT_BLKP h bp)) +
        MAX CHUNKSIZE (align_size s -
          (GET_SIZE h (HDRP bp) + GET_SIZE h (HDRP (NEXT_BLKP h bp)))) < 2 ^ 64 →
      (∀ k, k < (GET_SIZE h (HDRP bp) - 16) / 8 →
        GET hE (bp + 8 * k) = GET h (bp + 8 * k)) →
      (∀ k, k < (GET_SIZE h (HDRP bp) - 16) / 8 →
        GET (pop_free hE (NEXT_BLKP hE bp)) (bp + 8 * k) = GET hE (bp + 8 * k)) →
      mm_realloc h bp s fuel = some (h', r) →
      r = bp ∧
      (∀ k, k < (GET_SIZE h (HDRP bp) - 16) / 8 →
        GET h' (bp + 8 * k) = GET h (bp + 8 * k))) := by
  refine ⟨?_, ?_, ?_⟩
  · intro h h1 h3 bp s fuel p1 old hold hs0 hlt hepi halc hmal hkeep hnew hpay hdisj
      hfree hfrm
    have hdvd : 8 ∣ old := hold ▸ GET_SIZE_dvd h (HDRP bp)
    have h8 : 8 * (old / 8) = old := by omega
    have hrun : mm_realloc h bp s fuel = some (h3, p1) := by
      simp only [mm_realloc]
      rw [if_neg hs0, if_neg (by omega : ¬ GET_SIZE h (HDRP bp) ≥ align_size s),
        if_neg (fun hor => Or.elim hor halc hepi)]
      simp only [hmal, hkeep]
      simp only [hfree]
    refine ⟨hrun, by omega, by omega, ?_, ?_⟩
    · intro k hk
      rw [hfrm k hk, memcpyW_copy (old / 8) h1 p1 bp k (by omega) hk]
      exact hpay k hk
    · intro q hq
      exact memcpyW_frame (old / 8) h1 p1 bp q (by omega)
  · intro h h' bp s fuel r hs0 hbp hlt husable hrem hbound hpop hrun
    have hdo : 8 ∣ GET_SIZE h (HDRP bp) := GET_SIZE_dvd h (HDRP bp)
    have hdn : 8 ∣ GET_SIZE h (HDRP (NEXT_BLKP h bp)) :=
      GET_SIZE_dvd h (HDRP (NEXT_BLKP h bp))
    have hda : 8 ∣ align_size s := align_size_dvd8 s
    have hge : 32 ≤ align_size s := align_size_ge32 s
    simp only [mm_realloc] at hrun
    rw [if_neg hs0, if_neg (by omega : ¬ GET_SIZE h (HDRP bp) ≥ align_size s),
      if_pos husable,
      if_neg (by omega :
        ¬ ((GET_SIZE h (HDRP bp) : Int) + (GET_SIZE h (HDRP (NEXT_BLKP h bp)) : Int) -
          (align_size s : Int) < 0))] at hrun
    simp only [Option.some.injEq, Prod.mk.injEq] at hrun
    obtain ⟨hh', hr⟩ := hrun
    subst hh'
    subst hr
    refine ⟨rfl, ?_⟩
    intro k hk
    have hnz : align_size s +
        ((GET_SIZE h (HDRP bp) : Int) + (GET_SIZE h (HDRP (NEXT_BLKP h bp)) : Int) -
          (align_size s : Int)).toNat =
        GET_SIZE h (HDRP bp) + GET_SIZE h (HDRP (NEXT_BLKP h bp)) := by omega
    set NZ := align_size s +
        ((GET_SIZE h (HDRP bp) : Int) + (GET_SIZE h (HDRP (NEXT_BLKP h bp)) : Int) -
          (align_size s : Int)).toNat with hNZ
    have hhd : GET (PUT (pop_free h (NEXT_BLKP h bp)) (HDRP bp) (PACK NZ 1))
        (HDRP bp) = PACK NZ 1 := GET_PUT_self _ _ _
    have hsz3 : GET_SIZE (PUT (pop_free h (NEXT_BLKP h bp)) (HDRP bp) (PACK NZ 1))
        (HDRP bp) = NZ :=
      GET_SIZE_of_PACK _ _ _ _ hhd (by omega) (by omega) (by omega)
    have hftr : FTRP (PUT (pop_free h (NEXT_BLKP h bp)) (HDRP bp) (PACK NZ 1)) bp =
        bp + NZ - 16 := by
      unfold FTRP
      rw [hsz3]
      have : DSIZE = 16 := by decide
      omega
    rw [hftr]
    rw [GET_PUT_ne _ _ _ _ (word_ne _ _ (by omega))]
    have hhdr : HDRP bp = bp - 8 := rfl
    rw [GET_PUT_ne _ _ _ _ (word_ne _ _ (by rw [hhdr]; omega))]
    exact hpop k hk
  · intro h hE h' bp s fuel pE r hs0 hbp hlt husable hremneg hext hpE hbound hpayE
      hpopE hrun
    have hdo : 8 ∣ GET_SIZE h (HDRP bp) := GET_SIZE_dvd h (HDRP bp)
    have hdn : 8 ∣ GET_SIZE h (HDRP (NEXT_BLKP h bp)) :=
      GET_SIZE_dvd h (HDRP (NEXT_BLKP h bp))
    have hda : 8 ∣ align_size s := align_size_dvd8 s
    have hge : 32 ≤ align_size s := align_size_ge32 s
    have h8M : 8 ∣ MAX CHUNKSIZE (align_size s -
        (GET_SIZE h (HDRP bp) + GET_SIZE h (HDRP (NEXT_BLKP h bp)))) := by
      unfold MAX
      split
      · decide
      · omega
    have hMge : align_size s -
        (GET_SIZE h (HDRP bp) + GET_SIZE h (HDRP (NEXT_BLKP h bp))) ≤
        MAX CHUNKSIZE (align_size s -
          (GET_SIZE h (HDRP bp) + GET_SIZE h (HDRP (NEXT_BLKP h bp)))) := by
      unfold MAX
      split <;> omega
    have hMc : CHUNKSIZE ≤ MAX CHUNKSIZE (align_size s -
        (GET_SIZE h (HDRP bp) + GET_SIZE h (HDRP (NEXT_BLKP h bp)))) := by
      unfold MAX
      split <;> omega
    have hCc : CHUNKSIZE = 4112 := by decide
    simp only [mm_realloc] at hrun
    rw [if_neg hs0, if_neg (by omega : ¬ GET_SIZE h (HDRP bp) ≥ align_size s),
      if_pos husable,
      if_pos (by omega :
        ((GET_SIZE h (HDRP bp) : Int) + (GET_SIZE h (HDRP (NEXT_BLKP h bp)) : Int) -
          (align_size s : Int) < 0))] at hrun
    have harg : (-((GET_SIZE h (HDRP bp) : Int) +
        (GET_SIZE h (HDRP (NEXT_BLKP h bp)) : Int) - (align_size s : Int))).toNat =
        align_size s - (GET_SIZE h (HDRP bp) + GET_SIZE h (HDRP (NEXT_BLKP h bp))) := by
      omega
    rw [harg] at hrun
    simp only [hext] at hrun
    rw [if_neg hpE] at hrun
    simp only [Option.some.injEq, Prod.mk.injEq] at hrun
    obtain ⟨hh', hr⟩ := hrun
    subst hh'
    subst hr
    refine ⟨rfl, ?_⟩
    intro k hk
    set M := MAX CHUNKSIZE (align_size s -
        (GET_SIZE h (HDRP bp) + GET_SIZE h (HDRP (NEXT_BLKP h bp)))) with hM
    have hnz : align_size s +
        ((GET_SIZE h (HDRP bp) : Int) + (GET_SIZE h (HDRP (NEXT_BLKP h bp)) : Int) -
          (align_size s : Int) + (M : Int)).toNat =
        GET_SIZE h (HDRP bp) + GET_SIZE h (HDRP (NEXT_BLKP h bp)) + M := by omega
    set NZ := align_size s +
        ((GET_SIZE h (HDRP bp) : Int) + (GET_SIZE h (HDRP (NEXT_BLKP h bp)) : Int) -
          (align_size s : Int) + (M : Int)).toNat with hNZ
    have hhd : GET (PUT (pop_free hE (NEXT_BLKP hE bp)) (HDRP bp) (PACK NZ 1))
        (HDRP bp) = PACK NZ 1 := GET_PUT_self _ _ _
    have hsz3 : GET_SIZE (PUT (pop_free hE (NEXT_BLKP hE bp)) (HDRP bp) (PACK NZ 1))
        (HDRP bp) = NZ :=
      GET_SIZE_of_PACK _ _ _ _ hhd (by omega) (by omega) (by omega)
    have hftr : FTRP (PUT (pop_free hE (NEXT_BLKP hE bp)) (HDRP bp) (PACK NZ 1)) bp =
        bp + NZ - 16 := by
      unfold FTRP
      rw [hsz3]
      have : DSIZE = 16 := by decide
      omega
    rw [hftr]
    rw [GET_PUT_ne _ _ _ _ (word_ne _ _ (by omega))]
    have hhdr : HDRP bp = bp - 8 := rfl
    rw [GET_PUT_ne _ _ _ _ (word_ne _ _ (by rw [hhdr]; omega))]
    rw [hpopE k hk]
    exact hpayE k hk

/-- C3 witness: the three paths at concrete heaps.  Relocate: resize of
the 40-byte block 1032 on heapKP to aligned size 48 moves the payload to
960 intact.  In place without growth: resize of 1040 on heapMP keeps the
payload words.  In place with growth: resize of 1072 on heapAP (next is
the epilogue) keeps the payload words. -/
theorem c3_resize_preserves_payload_witness :
    GET heapK3 960 = GET heapKP 1032 ∧
    GET heapK3 968 = GET heapKP 1040 ∧
    GET heapK3 976 = GET heapKP 1048 ∧
    GET heapM3 1040 = GET heapMP 1040 ∧
    GET heapM3 1048 = GET heapMP 1048 ∧
    GET heapA3 1072 = GET heapAP 1072 ∧
    GET heapA3 1080 = GET heapAP 1080 := by
  have h1 := (c3_resize_preserves_payload.1 heapKP heapK1 heapK3 1032 32 FUEL 960 40
    (by decide) (by decide) (by decide) (by decide) (by decide) rfl (by decide)
    (by decide) (by decide) (by decide) rfl (by decide)).2.2.2.1
  have h2 := (c3_resize_preserves_payload.2.1 heapMP heapM3 1040 17 FUEL 1040
    (by decide) (by decide) (by decide) (by decide) (by decide) (by decide)
    (by decide) rfl).2
  have h3 := (c3_resize_preserves_payload.2.2 heapAP heapAE heapA3 1072 50 FUEL 1104
    1072 (by decide) (by decide) (by decide) (by decide) (by decide) rfl (by decide)
    (by decide) (by decide) (by decide) rfl).2
  exact ⟨h1 0 (by decide), h1 1 (by decide), h1 2 (by decide),
    h2 0 (by decide), h2 1 (by decide),
    h3 0 (by decide), h3 1 (by decide)⟩

/-! ## C8: ordered insertion into a free list -/

lemma walkList_succChain :
    ∀ (f : Nat) (h : Heap) (s : Nat) (l : List Nat),
      walkList h f s = some l → succChain h s l ∧ l.length ≤ f := by
  intro f
  induction f with
  | zero =>
    intro h s l hw
    unfold walkList at hw
    split at hw
    · rename_i hs
      simp only [Option.some.injEq] at hw
      subst hw
      exact ⟨hs, by simp⟩
    · exact absurd hw (by simp)
  | succ f ih =>
    intro h s l hw
    unfold walkList at hw
    split at hw
    · rename_i hs
      simp only [Option.some.injEq] at hw
      subst hw
      exact ⟨hs, by simp⟩
    · rename_i hs
      rw [Option.map_eq_some'] at hw
      obtain ⟨t, ht, hl⟩ := hw
      subst hl
      obtain ⟨hc, hlen⟩ := ih h (SUCC_BLKP h s) t ht
      exact ⟨⟨rfl, hs, hc⟩, by simp; omega⟩

lemma succChain_walkList :
    ∀ (l : List Nat) (h : Heap) (s f : Nat),
      succChain h s l → l.length ≤ f → walkList h f s = some l := by
  intro l
  induction l with
  | nil =>
    intro h s f hc _
    have hs : s = 0 := hc
    subst hs
    cases f <;> rfl
  | cons x t ih =>
    intro h s f hc hlen
    obtain ⟨hsx, hx0, hrest⟩ := hc
    cases f with
    | zero => simp at hlen
    | succ f =>
      unfold walkList
      rw [hsx, if_neg hx0]
      rw [ih h (SUCC_BLKP h x) f hrest (by simp at hlen; omega)]
      rfl

lemma succSeg_append :
    ∀ (l1 l2 : List Nat) (h : Heap) (s m : Nat),
      succSeg h s (l1 ++ l2) m ↔ ∃ j, succSeg h s l1 j ∧ succSeg h j l2 m := by
  intro l1
  induction l1 with
  | nil =>
    intro l2 h s m
    constructor
    · intro hs
      exact ⟨s, rfl, hs⟩
    · rintro ⟨j, hj, hs⟩
      have : s = j := hj
      subst this
      exact hs
  | cons x t ih =>
    intro l2 h s m
    constructor
    · rintro ⟨hsx, hx0, hrest⟩
      obtain ⟨j, hj1, hj2⟩ := (ih l2 h (SUCC_BLKP h x) m).mp hrest
      exact ⟨j, ⟨hsx, hx0, hj1⟩, hj2⟩
    · rintro ⟨j, ⟨hsx, hx0, hseg⟩, hs⟩
      exact ⟨hsx, hx0, (ih l2 h (SUCC_BLKP h x) m).mpr ⟨j, hseg, hs⟩⟩

lemma succSeg_congr :
    ∀ (l : List Nat) (h1 h2 : Heap) (s m : Nat),
      succSeg h1 s l m → (∀ n ∈ l, SUCC_BLKP h2 n = SUCC_BLKP h1 n) →
      succSeg h2 s l m := by
  intro l
  induction l with
  | nil => intro h1 h2 s m hs _; exact hs
  | cons x t ih =>
    intro h1 h2 s m hs hf
    obtain ⟨hsx, hx0, hrest⟩ := hs
    refine ⟨hsx, hx0, ?_⟩
    rw [hf x (by simp)]
    exact ih h1 h2 _ m hrest (fun n hn => hf n (by simp [hn]))

lemma getLastD_mem : ∀ (l : List Nat) (d : Nat), l ≠ [] → l.getLastD d ∈ l := by
  intro l
  induction l with
  | nil => intro d hne; exact absurd rfl hne
  | cons x t ih =>
    intro d _
    rw [List.getLastD_cons]
    cases t with
    | nil => simp [List.getLastD]
    | cons y u => exact List.mem_cons_of_mem x (ih x (by simp))

lemma succSeg_redirect :
    ∀ (l : List Nat) (h1 h2 : Heap) (s m0 m1 d : Nat), l ≠ [] →
      succSeg h1 s l m0 → l.Nodup →
      (∀ n ∈ l, n ≠ l.getLastD d → SUCC_BLKP h2 n = SUCC_BLKP h1 n) →
      SUCC_BLKP h2 (l.getLastD d) = m1 →
      succSeg h2 s l m1 := by
  intro l
  induction l with
  | nil => intro h1 h2 s m0 m1 d hne; exact absurd rfl hne
  | cons x t ih =>
    intro h1 h2 s m0 m1 d _ hs hnd hf hlast
    obtain ⟨hsx, hx0, hrest⟩ := hs
    rw [List.getLastD_cons] at hf hlast
    cases t with
    | nil =>
      simp only [List.getLastD] at hf hlast
      exact ⟨hsx, hx0, hlast⟩
    | cons y u =>
      have hxin : x ∉ y :: u := by
        have := List.nodup_cons.mp hnd
        exact this.1
      have hxne : x ≠ (y :: u).getLastD x := by
        intro hcontra
        exact hxin (hcontra ▸ getLastD_mem (y :: u) x (by simp))
      refine ⟨hsx, hx0, ?_⟩
      rw [hf x (by simp) hxne]
      exact ih h1 h2 _ m0 m1 x (by simp) hrest (List.nodup_cons.mp hnd).2
        (fun n hn hne => hf n (by simp [hn]) hne) hlast

lemma dropWhile_head_false (p : Nat → Bool) :
    ∀ (l : List Nat) (c : Nat) (t : List Nat), l.dropWhile p = c :: t → p c = false := by
  intro l
  induction l with
  | nil => intro c t hc; simp [List.dropWhile] at hc
  | cons x xs ih =>
    intro c t hc
    rw [List.dropWhile_cons] at hc
    split at hc
    · exact ih c t hc
    · rename_i hpx
      simp only [List.cons.injEq] at hc
      rw [← hc.1]
      exact Bool.not_eq_true _ ▸ (by simpa using hpx)

lemma index_of_loop_le (size : Nat) :
    ∀ (f k index : Nat), index_of_loop size f (32 * 2 ^ k) index ≤ index + (15 - k) := by
  intro f
  induction f with
  | zero => intro k index; exact Nat.le_add_right _ _
  | succ f ih =>
    intro k index
    unfold index_of_loop
    have hsh : (4 * WSIZE) <<< (LISTSIZE - 1) = 32 * 2 ^ 15 := by decide
    rw [hsh]
    split
    · rename_i hlt
      have hk : k < 15 := by
        by_contra hge
        have : (2 : Nat) ^ 15 ≤ 2 ^ k := Nat.pow_le_pow_right (by norm_num) (by omega)
        omega
      split
      · omega
      · have : 32 * 2 ^ k * 2 = 32 * 2 ^ (k + 1) := by ring
        rw [this]
        have := ih (k + 1) (index + 1)
        omega
    · omega

lemma index_of_le (size : Nat) : index_of size ≤ 15 := by
  have h := index_of_loop_le size 16 0 0
  simp only [pow_zero, mul_one] at h
  have : (4 * WSIZE : Nat) = 32 * 2 ^ 0 := by decide
  unfold index_of
  rw [this]
  simpa using index_of_loop_le size 16 0 0

lemma freelists_range (sz : Nat) :
    808 ≤ freelists (index_of sz) ∧ freelists (index_of sz) ≤ 928 := by
  have h := index_of_le sz
  unfold freelists heap_ptr HEAPLO LISTSIZE WSIZE
  omega

lemma add_find_eq (h : Heap) (size : Nat) :
    ∀ (l : List Nat) (f pred curr : Nat) (pc : Nat × Nat), succChain h curr l →
      add_find h size f pred curr = some pc →
      pc = ((l.takeWhile (fun n => decide (GET_SIZE h (HDRP n) < size))).getLastD pred,
        (l.dropWhile (fun n => decide (GET_SIZE h (HDRP n) < size))).headD 0) := by
  intro l
  induction l with
  | nil =>
    intro f pred curr pc hc hfind
    have hcur : curr = 0 := hc
    subst hcur
    cases f with
    | zero => exact absurd hfind (by simp [add_find])
    | succ f =>
      unfold add_find at hfind
      rw [if_neg (by simp)] at hfind
      simp only [Option.some.injEq] at hfind
      simp [← hfind]
  | cons x t ih =>
    intro f pred curr pc hc hfind
    obtain ⟨hcx, hx0, hrest⟩ := hc
    subst hcx
    cases f with
    | zero => exact absurd hfind (by simp [add_find])
    | succ f =>
      unfold add_find at hfind
      by_cases hp : GET_SIZE h (HDRP curr) < size
      · rw [if_pos ⟨hx0, hp⟩] at hfind
        have := ih f curr (SUCC_BLKP h curr) pc hrest hfind
        rw [this, List.takeWhile_cons_of_pos (by simpa using hp),
          List.dropWhile_cons_of_pos (by simpa using hp), List.getLastD_cons]
      · rw [if_neg (by
          intro hand
          exact hp hand.2)] at hfind
        simp only [Option.some.injEq] at hfind
        rw [← hfind, List.takeWhile_cons_of_neg (by simpa using hp),
          List.dropWhile_cons_of_neg (by simpa using hp)]
        rfl

lemma apart_ne {a b : Nat} (h : apart a b) : a ≠ b := by
  unfold apart at h
  omega

lemma SUCC_eq (h : Heap) (n : Nat) : SUCC_BLKP h n = GET h (n + 8) := rfl

lemma HDRP_eq (n : Nat) : HDRP n = n - 8 := rfl

lemma GET_SIZE_congr (h1 h2 : Heap) (q : Nat) (he : GET h1 q = GET h2 q) :
    GET_SIZE h1 q = GET_SIZE h2 q := by
  unfold GET_SIZE
  rw [he]

set_option maxHeartbeats 2000000 in
/-- C6.  Coalescing postcondition: at the completion of coalesce — the
final step of every free operation and of every heap growth (extend_heap
ends by coalescing the freshly planted block, and mm_free ends in
coalesce) — the returned block is marked free and both of its physical
neighbours are marked allocated, so no two adjacent free blocks coexist.
The four conjuncts follow the four merge cases of the code (no merge,
merge with previous, merge with next, merge with both).  The hypotheses
record the local well-formedness of the heap around bp that the caller
guarantees: header/footer agreement and minimum sizes for the blocks
involved, the pre-invariant that the blocks beyond the free neighbours
are allocated, the defining equations of the intermediate heaps exactly
as the code computes them, and frame conditions stating that the
free-list surgery of pop_free and add_free does not touch the seven
header/footer words around bp (keyWords), which hold on well-formed
heaps because those routines only write list-head slots and
predecessor/successor words of free blocks. -/
theorem c6_coalesce_no_adjacent_free :
    (∀ (h : Heap) (bp fuel : Nat),
        GET_ALLOC h (HDRP (PREV_BLKP h bp)) = 1 →
        GET_ALLOC h (HDRP (NEXT_BLKP h bp)) = 1 →
        GET_ALLOC h (HDRP bp) = 0 →
        coalesce h bp fuel = some (h, bp) ∧
        GET_ALLOC h (HDRP (PREV_BLKP h bp)) = 1 ∧
        GET_ALLOC h (HDRP (NEXT_BLKP h bp)) = 1 ∧
        GET_ALLOC h (HDRP bp) = 0) ∧
    (∀ (h h1 h2 h3 h4 h9 : Heap) (bp psz sz ppsz fuel : Nat),
        PREV_BLKP h bp = bp - psz →
        GET_SIZE h (HDRP bp) = sz →
        GET_SIZE h (HDRP (bp - psz)) = psz →
        PREV_BLKP h (bp - psz) = bp - psz - ppsz →
        32 ≤ psz → 32 ≤ sz → 16 ≤ ppsz →
        ppsz + psz + 16 ≤ bp →
        sz + psz < 2 ^ 64 →
        GET_ALLOC h (HDRP (PREV_BLKP h bp)) = 0 →
        GET_ALLOC h (HDRP (NEXT_BLKP h bp)) = 1 →
        GET_ALLOC h (HDRP (bp - psz - ppsz)) = 1 →
        pop_free h bp = h1 →
        agreeOn h1 h (keyWords h bp) →
        pop_free h1 (bp - psz) = h2 →
        agreeOn h2 h (keyWords h bp) →
        PUT h2 (bp + sz - DSIZE) (PACK (sz + psz) 0) = h3 →
        PUT h3 (HDRP (bp - psz)) (PACK (sz + psz) 0) = h4 →
        add_free h4 (bp - psz) (sz + psz) fuel = some h9 →
        agreeOn h9 h4 (keyWords h bp) →
        coalesce h bp fuel = some (h9, bp - psz) ∧
        GET_ALLOC h9 (HDRP (bp - psz)) = 0 ∧
        GET_ALLOC h9 (HDRP (PREV_BLKP h9 (bp - psz))) = 1 ∧
        GET_ALLOC h9 (HDRP (NEXT_BLKP h9 (bp - psz))) = 1) ∧
    (∀ (h h1 h6 h7 h8 h9 : Heap) (bp psz sz nsz fuel : Nat),
        PREV_BLKP h bp = bp - psz →
        GET_SIZE h (HDRP bp) = sz →
        GET_SIZE h (HDRP (bp + sz)) = nsz →
        16 ≤ psz → 32 ≤ sz → 32 ≤ nsz →
        psz + 16 ≤ bp →
        sz + nsz < 2 ^ 64 →
        GET_ALLOC h (HDRP (PREV_BLKP h bp)) = 1 →
        GET_ALLOC h (HDRP (NEXT_BLKP h bp)) = 0 →
        GET_ALLOC h (HDRP (bp + sz + nsz)) = 1 →
        pop_free h bp = h1 →
        agreeOn h1 h (keyWords h bp) →
        pop_free h1 (bp + sz) = h6 →
        agreeOn h6 h (keyWords h bp) →
        PUT h6 (bp + sz + nsz - DSIZE) (PACK (sz + nsz) 0) = h7 →
        PUT h7 (HDRP bp) (PACK (sz + nsz) 0) = h8 →
        add_free h8 bp (sz + nsz) fuel = some h9 →
        agreeOn h9 h8 (keyWords h bp) →
        coalesce h bp fuel = some (h9, bp) ∧
        GET_ALLOC h9 (HDRP bp) = 0 ∧
        GET_ALLOC h9 (HDRP (PREV_BLKP h9 bp)) = 1 ∧
        GET_ALLOC h9 (HDRP (NEXT_BLKP h9 bp)) = 1) ∧
    (∀ (h h1 h2 h3 h4 h6 h7 h8 h9 : Heap) (bp psz sz nsz ppsz fuel : Nat),
        PREV_BLKP h bp = bp - psz →
        GET_SIZE h (HDRP bp) = sz →
        GET_SIZE h (HDRP (bp - psz)) = psz →
        PREV_BLKP h (bp - psz) = bp - psz - ppsz →
        GET_SIZE h (HDRP (bp + sz)) = nsz →
        32 ≤ psz → 32 ≤ sz → 32 ≤ nsz → 16 ≤ ppsz →
        ppsz + psz + 16 ≤ bp →
        sz + psz + nsz < 2 ^ 64 →
        GET_ALLOC h (HDRP (PREV_BLKP h bp)) = 0 →
        GET_ALLOC h (HDRP (NEXT_BLKP h bp)) = 0 →
        GET_ALLOC h (HDRP (bp - psz - ppsz)) = 1 →
        GET_ALLOC h (HDRP (bp + sz + nsz)) = 1 →
        pop_free h bp = h1 →
        agreeOn h1 h (keyWords h bp) →
        pop_free h1 (bp - psz) = h2 →
        agreeOn h2 h (keyWords h bp) →
        PUT h2 (bp + sz - DSIZE) (PACK (sz + psz) 0) = h3 →
        PUT h3 (HDRP (bp - psz)) (PACK (sz + psz) 0) = h4 →
        pop_free h4 (bp + sz) = h6 →
        agreeOn h6 h4 (keyWords h bp) →
        PUT h6 (bp + sz + nsz - DSIZE) (PACK (sz + psz + nsz) 0) = h7 →
        PUT h7 (HDRP (bp - psz)) (PACK (sz + psz + nsz) 0) = h8 →
        add_free h8 (bp - psz) (sz + psz + nsz) fuel = some h9 →
        agreeOn h9 h8 (keyWords h bp) →
        coalesce h bp fuel = some (h9, bp - psz) ∧
        GET_ALLOC h9 (HDRP (bp - psz)) = 0 ∧
        GET_ALLOC h9 (HDRP (PREV_BLKP h9 (bp - psz))) = 1 ∧
        GET_ALLOC h9 (HDRP (NEXT_BLKP h9 (bp - psz))) = 1) := by
  refine ⟨?_, ?_, ?_, ?_⟩
  · intro h bp fuel hpa hna hfr
    refine ⟨?_, hpa, hna, hfr⟩
    simp only [coalesce]
    rw [if_pos (⟨by omega, by omega⟩ :
      ¬(GET_ALLOC h (HDRP (PREV_BLKP h bp)) = 0) ∧
      ¬(GET_ALLOC h (HDRP (NEXT_BLKP h bp)) = 0))]
  · intro h h1 h2 h3 h4 h9 bp psz sz ppsz fuel hPB hsz hpsz hPPB hp32 hs32
      hpp16 hlo hov hpf hna hppa heq1 fr1 heq2 fr2 heq3 heq4 hadd fradd
    have hPBd : bp - GET_SIZE h (bp - DSIZE) = bp - psz := hPB
    have hftr : GET_SIZE h (bp - DSIZE) = psz := by omega
    have hPPBd : bp - psz - GET_SIZE h (bp - psz - DSIZE) = bp - psz - ppsz := hPPB
    have hftrpp : GET_SIZE h (bp - psz - DSIZE) = ppsz := by omega
    have hdvds : 8 ∣ sz := hsz ▸ GET_SIZE_dvd h (HDRP bp)
    have hdvdp : 8 ∣ psz := hpsz ▸ GET_SIZE_dvd h (HDRP (bp - psz))
    have hNB : NEXT_BLKP h bp = bp + sz := by
      have hszW : GET_SIZE h (bp - WSIZE) = sz := hsz
      unfold NEXT_BLKP
      omega
    have e1 : GET h1 (bp - DSIZE) = GET h (bp - DSIZE) := fr1 _ (by simp [keyWords])
    have hPB1 : PREV_BLKP h1 bp = bp - psz := by
      unfold PREV_BLKP
      rw [GET_SIZE_congr h1 h _ e1]
      omega
    have e2 : GET h2 (bp - DSIZE) = GET h (bp - DSIZE) := fr2 _ (by simp [keyWords])
    have hPB2 : PREV_BLKP h2 bp = bp - psz := by
      unfold PREV_BLKP
      rw [GET_SIZE_congr h2 h _ e2]
      omega
    have e3 : GET h2 (HDRP (bp - psz)) = GET h (HDRP (bp - psz)) :=
      fr2 _ (by simp [keyWords, hPB])
    have hsz2 : GET_SIZE h2 (HDRP (bp - psz)) = psz := by
      rw [GET_SIZE_congr h2 h _ e3, hpsz]
    have e4 : GET h2 (HDRP bp) = GET h (HDRP bp) := fr2 _ (by simp [keyWords])
    have hFT2 : FTRP h2 bp = bp + sz - DSIZE := by
      unfold FTRP
      rw [GET_SIZE_congr h2 h _ e4, hsz]
    have e5 : GET h3 (bp - DSIZE) = GET h (bp - DSIZE) := by
      rw [← heq3, GET_PUT_ne _ _ _ _ (word_ne _ _ (by simp only [DSIZE, WSIZE]; omega))]
      exact e2
    have hPB3 : PREV_BLKP h3 bp = bp - psz := by
      unfold PREV_BLKP
      rw [GET_SIZE_congr h3 h _ e5]
      omega
    have e6 : GET h4 (bp - DSIZE) = GET h (bp - DSIZE) := by
      rw [← heq4, GET_PUT_ne _ _ _ _ (word_ne _ _ (by simp only [HDRP, DSIZE, WSIZE]; omega))]
      exact e5
    have hPB4 : PREV_BLKP h4 bp = bp - psz := by
      unfold PREV_BLKP
      rw [GET_SIZE_congr h4 h _ e6]
      omega
    have g2 : GET h4 (HDRP (bp - psz)) = PACK (sz + psz) 0 := by
      rw [← heq4]
      exact GET_PUT_self _ _ _
    have g1 : GET h9 (HDRP (bp - psz)) = PACK (sz + psz) 0 := by
      rw [fradd _ (by simp [keyWords, hPB])]
      exact g2
    have f1 : GET h9 (bp - psz - DSIZE) = GET h (bp - psz - DSIZE) := by
      rw [fradd _ (by simp [keyWords, hPB]), ← heq4,
        GET_PUT_ne _ _ _ _ (word_ne _ _ (by simp only [HDRP, DSIZE, WSIZE]; omega)), ← heq3,
        GET_PUT_ne _ _ _ _ (word_ne _ _ (by simp only [DSIZE, WSIZE]; omega))]
      exact fr2 _ (by simp [keyWords, hPB])
    have f2 : GET h9 (HDRP (bp - psz - ppsz)) = GET h (HDRP (bp - psz - ppsz)) := by
      rw [fradd _ (by simp [keyWords, hPB, hPPB]), ← heq4,
        GET_PUT_ne _ _ _ _ (word_ne _ _ (by simp only [HDRP, DSIZE, WSIZE]; omega)), ← heq3,
        GET_PUT_ne _ _ _ _ (word_ne _ _ (by simp only [HDRP, DSIZE, WSIZE]; omega))]
      exact fr2 _ (by simp [keyWords, hPB, hPPB])
    have f3 : GET h9 (HDRP (bp + sz)) = GET h (HDRP (bp + sz)) := by
      rw [fradd _ (by simp [keyWords, hNB]), ← heq4,
        GET_PUT_ne _ _ _ _ (word_ne _ _ (by simp only [HDRP, DSIZE, WSIZE]; omega)), ← heq3,
        GET_PUT_ne _ _ _ _ (word_ne _ _ (by simp only [HDRP, DSIZE, WSIZE]; omega))]
      exact fr2 _ (by simp [keyWords, hNB])
    have hS9 : GET_SIZE h9 (HDRP (bp - psz)) = sz + psz :=
      GET_SIZE_of_PACK _ _ _ _ g1 (by omega) hov (by omega)
    have hPB9 : PREV_BLKP h9 (bp - psz) = bp - psz - ppsz := by
      unfold PREV_BLKP
      rw [GET_SIZE_congr h9 h _ f1]
      omega
    have hN9 : NEXT_BLKP h9 (bp - psz) = bp + sz := by
      have hS9' : GET_SIZE h9 (bp - psz - WSIZE) = sz + psz := hS9
      unfold NEXT_BLKP
      omega
    refine ⟨?_, ?_, ?_, ?_⟩
    · simp only [coalesce]
      have hguard : ¬(¬(GET_ALLOC h (HDRP (PREV_BLKP h bp)) = 0) ∧
          ¬(GET_ALLOC h (HDRP (NEXT_BLKP h bp)) = 0)) := fun hc => hc.1 hpf
      rw [if_neg hguard, if_pos hpf,
        if_neg (show ¬(GET_ALLOC h (HDRP (NEXT_BLKP h bp)) = 0) by omega)]
      dsimp only
      rw [heq1, hPB1, heq2, hPB2, hsz2, hsz, hFT2, heq3, hPB3, heq4, hPB4, hadd]
      rfl
    · exact GET_ALLOC_of_PACK _ _ _ _ g1 (by omega) (by omega)
    · rw [hPB9]
      have e : GET_ALLOC h9 (HDRP (bp - psz - ppsz)) =
          GET_ALLOC h (HDRP (bp - psz - ppsz)) := by
        unfold GET_ALLOC
        rw [f2]
      rw [e]
      exact hppa
    · rw [hN9]
      have e : GET_ALLOC h9 (HDRP (bp + sz)) = GET_ALLOC h (HDRP (bp + sz)) := by
        unfold GET_ALLOC
        rw [f3]
      rw [e, ← hNB]
      exact hna
  · intro h h1 h6 h7 h8 h9 bp psz sz nsz fuel hPB hsz hnsz hp16 hs32 hn32
      hlo hov hpa hnf hnna heq1 fr1 heq6 fr6 heq7 heq8 hadd fradd
    have hPBd : bp - GET_SIZE h (bp - DSIZE) = bp - psz := hPB
    have hftr : GET_SIZE h (bp - DSIZE) = psz := by omega
    have hdvds : 8 ∣ sz := hsz ▸ GET_SIZE_dvd h (HDRP bp)
    have hdvdn : 8 ∣ nsz := hnsz ▸ GET_SIZE_dvd h (HDRP (bp + sz))
    have hszW : GET_SIZE h (bp - WSIZE) = sz := hsz
    have hNB : NEXT_BLKP h bp = bp + sz := by
      unfold NEXT_BLKP
      omega
    have hnszW : GET_SIZE h (bp + sz - WSIZE) = nsz := hnsz
    have hNN : NEXT_BLKP h (bp + sz) = bp + sz + nsz := by
      unfold NEXT_BLKP
      omega
    have e1 : GET h1 (HDRP bp) = GET h (HDRP bp) := fr1 _ (by simp [keyWords])
    have e1' : GET h1 (bp - WSIZE) = GET h (bp - WSIZE) := e1
    have hNB1 : NEXT_BLKP h1 bp = bp + sz := by
      unfold NEXT_BLKP
      rw [GET_SIZE_congr h1 h _ e1']
      omega
    have e2 : GET h6 (HDRP bp) = GET h (HDRP bp) := fr6 _ (by simp [keyWords])
    have e2' : GET h6 (bp - WSIZE) = GET h (bp - WSIZE) := e2
    have hNB6 : NEXT_BLKP h6 bp = bp + sz := by
      unfold NEXT_BLKP
      rw [GET_SIZE_congr h6 h _ e2']
      omega
    have e3 : GET h6 (HDRP (bp + sz)) = GET h (HDRP (bp + sz)) :=
      fr6 _ (by simp [keyWords, hNB])
    have hs6 : GET_SIZE h6 (HDRP (bp + sz)) = nsz := by
      rw [GET_SIZE_congr h6 h _ e3, hnsz]
    have hFT6 : FTRP h6 (bp + sz) = bp + sz + nsz - DSIZE := by
      unfold FTRP
      rw [hs6]
    have g2 : GET h8 (HDRP bp) = PACK (sz + nsz) 0 := by
      rw [← heq8]
      exact GET_PUT_self _ _ _
    have g1 : GET h9 (HDRP bp) = PACK (sz + nsz) 0 := by
      rw [fradd _ (by simp [keyWords])]
      exact g2
    have f1 : GET h9 (bp - DSIZE) = GET h (bp - DSIZE) := by
      rw [fradd _ (by simp [keyWords]), ← heq8,
        GET_PUT_ne _ _ _ _ (word_ne _ _ (by simp only [HDRP, DSIZE, WSIZE]; omega)), ← heq7,
        GET_PUT_ne _ _ _ _ (word_ne _ _ (by simp only [DSIZE, WSIZE]; omega))]
      exact fr6 _ (by simp [keyWords])
    have f2 : GET h9 (HDRP (bp - psz)) = GET h (HDRP (bp - psz)) := by
      rw [fradd _ (by simp [keyWords, hPB]), ← heq8,
        GET_PUT_ne _ _ _ _ (word_ne _ _ (by simp only [HDRP, DSIZE, WSIZE]; omega)), ← heq7,
        GET_PUT_ne _ _ _ _ (word_ne _ _ (by simp only [HDRP, DSIZE, WSIZE]; omega))]
      exact fr6 _ (by simp [keyWords, hPB])
    have f3 : GET h9 (HDRP (bp + sz + nsz)) = GET h (HDRP (bp + sz + nsz)) := by
      rw [fradd _ (by simp [keyWords, hNB, hNN]), ← heq8,
        GET_PUT_ne _ _ _ _ (word_ne _ _ (by simp only [HDRP, DSIZE, WSIZE]; omega)), ← heq7,
        GET_PUT_ne _ _ _ _ (word_ne _ _ (by simp only [HDRP, DSIZE, WSIZE]; omega))]
      exact fr6 _ (by simp [keyWords, hNB, hNN])
    have hS9 : GET_SIZE h9 (HDRP bp) = sz + nsz :=
      GET_SIZE_of_PACK _ _ _ _ g1 (by omega) hov (by omega)
    have hPB9 : PREV_BLKP h9 bp = bp - psz := by
      unfold PREV_BLKP
      rw [GET_SIZE_congr h9 h _ f1]
      omega
    have hN9 : NEXT_BLKP h9 bp = bp + sz + nsz := by
      have hS9' : GET_SIZE h9 (bp - WSIZE) = sz + nsz := hS9
      unfold NEXT_BLKP
      omega
    refine ⟨?_, ?_, ?_, ?_⟩
    · simp only [coalesce]
      have hguard : ¬(¬(GET_ALLOC h (HDRP (PREV_BLKP h bp)) = 0) ∧
          ¬(GET_ALLOC h (HDRP (NEXT_BLKP h bp)) = 0)) := fun hc => hc.2 hnf
      rw [if_neg hguard,
        if_neg (show ¬(GET_ALLOC h (HDRP (PREV_BLKP h bp)) = 0) by omega),
        if_pos hnf]
      dsimp only
      rw [heq1, hNB1, heq6, hNB6, hs6, hsz, hFT6, heq7, heq8, hadd]
      rfl
    · exact GET_ALLOC_of_PACK _ _ _ _ g1 (by omega) (by omega)
    · rw [hPB9]
      have e : GET_ALLOC h9 (HDRP (bp - psz)) = GET_ALLOC h (HDRP (bp - psz)) := by
        unfold GET_ALLOC
        rw [f2]
      rw [e, ← hPB]
      exact hpa
    · rw [hN9]
      have e : GET_ALLOC h9 (HDRP (bp + sz + nsz)) =
          GET_ALLOC h (HDRP (bp + sz + nsz)) := by
        unfold GET_ALLOC
        rw [f3]
      rw [e]
      exact hnna
  · intro h h1 h2 h3 h4 h6 h7 h8 h9 bp psz sz nsz ppsz fuel hPB hsz hpsz hPPB hnsz
      hp32 hs32 hn32 hpp16 hlo hov hpf hnf hppa hnna heq1 fr1 heq2 fr2 heq3 heq4
      heq6 fr6 heq7 heq8 hadd fradd
    have hPBd : bp - GET_SIZE h (bp - DSIZE) = bp - psz := hPB
    have hftr : GET_SIZE h (bp - DSIZE) = psz := by omega
    have hPPBd : bp - psz - GET_SIZE h (bp - psz - DSIZE) = bp - psz - ppsz := hPPB
    have hftrpp : GET_SIZE h (bp - psz - DSIZE) = ppsz := by omega
    have hdvds : 8 ∣ sz := hsz ▸ GET_SIZE_dvd h (HDRP bp)
    have hdvdp : 8 ∣ psz := hpsz ▸ GET_SIZE_dvd h (HDRP (bp - psz))
    have hdvdn : 8 ∣ nsz := hnsz ▸ GET_SIZE_dvd h (HDRP (bp + sz))
    have hszW : GET_SIZE h (bp - WSIZE) = sz := hsz
    have hNB : NEXT_BLKP h bp = bp + sz := by
      unfold NEXT_BLKP
      omega
    have hnszW : GET_SIZE h (bp + sz - WSIZE) = nsz := hnsz
    have hNN : NEXT_BLKP h (bp + sz) = bp + sz + nsz := by
      unfold NEXT_BLKP
      omega
    have e1 : GET h1 (bp - DSIZE) = GET h (bp - DSIZE) := fr1 _ (by simp [keyWords])
    have hPB1 : PREV_BLKP h1 bp = bp - psz := by
      unfold PREV_BLKP
      rw [GET_SIZE_congr h1 h _ e1]
      omega
    have e2 : GET h2 (bp - DSIZE) = GET h (bp - DSIZE) := fr2 _ (by simp [keyWords])
    have hPB2 : PREV_BLKP h2 bp = bp - psz := by
      unfold PREV_BLKP
      rw [GET_SIZE_congr h2 h _ e2]
      omega
    have e3 : GET h2 (HDRP (bp - psz)) = GET h (HDRP (bp - psz)) :=
      fr2 _ (by simp [keyWords, hPB])
    have hsz2 : GET_SIZE h2 (HDRP (bp - psz)) = psz := by
      rw [GET_SIZE_congr h2 h _ e3, hpsz]
    have e4 : GET h2 (HDRP bp) = GET h (HDRP bp) := fr2 _ (by simp [keyWords])
    have hFT2 : FTRP h2 bp = bp + sz - DSIZE := by
      unfold FTRP
      rw [GET_SIZE_congr h2 h _ e4, hsz]
    have e5 : GET h3 (bp - DSIZE) = GET h (bp - DSIZE) := by
      rw [← heq3, GET_PUT_ne _ _ _ _ (word_ne _ _ (by simp only [DSIZE, WSIZE]; omega))]
      exact e2
    have hPB3 : PREV_BLKP h3 bp = bp - psz := by
      unfold PREV_BLKP
      rw [GET_SIZE_congr h3 h _ e5]
      omega
    have e6 : GET h4 (bp - DSIZE) = GET h (bp - DSIZE) := by
      rw [← heq4, GET_PUT_ne _ _ _ _ (word_ne _ _ (by simp only [HDRP, DSIZE, WSIZE]; omega))]
      exact e5
    have hPB4 : PREV_BLKP h4 bp = bp - psz := by
      unfold PREV_BLKP
      rw [GET_SIZE_congr h4 h _ e6]
      omega
    have g4 : GET h4 (HDRP (bp - psz)) = PACK (sz + psz) 0 := by
      rw [← heq4]
      exact GET_PUT_self _ _ _
    have hovp : sz + psz < 2 ^ 64 := by omega
    have hS4 : GET_SIZE h4 (HDRP (bp - psz)) = sz + psz :=
      GET_SIZE_of_PACK _ _ _ _ g4 (by omega) hovp (by omega)
    have hNB4 : NEXT_BLKP h4 (bp - psz) = bp + sz := by
      have hS4' : GET_SIZE h4 (bp - psz - WSIZE) = sz + psz := hS4
      unfold NEXT_BLKP
      omega
    have e7 : GET h6 (HDRP (bp - psz)) = GET h4 (HDRP (bp - psz)) :=
      fr6 _ (by simp [keyWords, hPB])
    have hS6 : GET_SIZE h6 (HDRP (bp - psz)) = sz + psz := by
      rw [GET_SIZE_congr h6 h4 _ e7]
      exact hS4
    have hNB6 : NEXT_BLKP h6 (bp - psz) = bp + sz := by
      have hS6' : GET_SIZE h6 (bp - psz - WSIZE) = sz + psz := hS6
      unfold NEXT_BLKP
      omega
    have e8 : GET h6 (HDRP (bp + sz)) = GET h4 (HDRP (bp + sz)) :=
      fr6 _ (by simp [keyWords, hNB])
    have e9 : GET h4 (HDRP (bp + sz)) = GET h (HDRP (bp + sz)) := by
      rw [← heq4, GET_PUT_ne _ _ _ _ (word_ne _ _ (by simp only [HDRP, DSIZE, WSIZE]; omega)),
        ← heq3, GET_PUT_ne _ _ _ _ (word_ne _ _ (by simp only [HDRP, DSIZE, WSIZE]; omega))]
      exact fr2 _ (by simp [keyWords, hNB])
    have hs69 : GET_SIZE h6 (HDRP (bp + sz)) = nsz := by
      rw [GET_SIZE_congr h6 h4 _ e8, GET_SIZE_congr h4 h _ e9, hnsz]
    have hFT6 : FTRP h6 (bp + sz) = bp + sz + nsz - DSIZE := by
      unfold FTRP
      rw [hs69]
    have g8 : GET h8 (HDRP (bp - psz)) = PACK (sz + psz + nsz) 0 := by
      rw [← heq8]
      exact GET_PUT_self _ _ _
    have g1 : GET h9 (HDRP (bp - psz)) = PACK (sz + psz + nsz) 0 := by
      rw [fradd _ (by simp [keyWords, hPB])]
      exact g8
    have f1 : GET h9 (bp - psz - DSIZE) = GET h (bp - psz - DSIZE) := by
      rw [fradd _ (by simp [keyWords, hPB]), ← heq8,
        GET_PUT_ne _ _ _ _ (word_ne _ _ (by simp only [HDRP, DSIZE, WSIZE]; omega)), ← heq7,
        GET_PUT_ne _ _ _ _ (word_ne _ _ (by simp only [DSIZE, WSIZE]; omega)),
        fr6 _ (by simp [keyWords, hPB]), ← heq4,
        GET_PUT_ne _ _ _ _ (word_ne _ _ (by simp only [HDRP, DSIZE, WSIZE]; omega)), ← heq3,
        GET_PUT_ne _ _ _ _ (word_ne _ _ (by simp only [DSIZE, WSIZE]; omega))]
      exact fr2 _ (by simp [keyWords, hPB])
    have f2 : GET h9 (HDRP (bp - psz - ppsz)) = GET h (HDRP (bp - psz - ppsz)) := by
      rw [fradd _ (by simp [keyWords, hPB, hPPB]), ← heq8,
        GET_PUT_ne _ _ _ _ (word_ne _ _ (by simp only [HDRP, DSIZE, WSIZE]; omega)), ← heq7,
        GET_PUT_ne _ _ _ _ (word_ne _ _ (by simp only [HDRP, DSIZE, WSIZE]; omega)),
        fr6 _ (by simp [keyWords, hPB, hPPB]), ← heq4,
        GET_PUT_ne _ _ _ _ (word_ne _ _ (by simp only [HDRP, DSIZE, WSIZE]; omega)), ← heq3,
        GET_PUT_ne _ _ _ _ (word_ne _ _ (by simp only [HDRP, DSIZE, WSIZE]; omega))]
      exact fr2 _ (by simp [keyWords, hPB, hPPB])
    have f3 : GET h9 (HDRP (bp + sz + nsz)) = GET h (HDRP (bp + sz + nsz)) := by
      rw [fradd _ (by simp [keyWords, hNB, hNN]), ← heq8,
        GET_PUT_ne _ _ _ _ (word_ne _ _ (by simp only [HDRP, DSIZE, WSIZE]; omega)), ← heq7,
        GET_PUT_ne _ _ _ _ (word_ne _ _ (by simp only [HDRP, DSIZE, WSIZE]; omega)),
        fr6 _ (by simp [keyWords, hNB, hNN]), ← heq4,
        GET_PUT_ne _ _ _ _ (word_ne _ _ (by simp only [HDRP, DSIZE, WSIZE]; omega)), ← heq3,
        GET_PUT_ne _ _ _ _ (word_ne _ _ (by simp only [HDRP, DSIZE, WSIZE]; omega))]
      exact fr2 _ (by simp [keyWords, hNB, hNN])
    have hS9 : GET_SIZE h9 (HDRP (bp - psz)) = sz + psz + nsz :=
      GET_SIZE_of_PACK _ _ _ _ g1 (by omega) hov (by omega)
    have hPB9 : PREV_BLKP h9 (bp - psz) = bp - psz - ppsz := by
      unfold PREV_BLKP
      rw [GET_SIZE_congr h9 h _ f1]
      omega
    have hN9 : NEXT_BLKP h9 (bp - psz) = bp + sz + nsz := by
      have hS9' : GET_SIZE h9 (bp - psz - WSIZE) = sz + psz + nsz := hS9
      unfold NEXT_BLKP
      omega
    refine ⟨?_, ?_, ?_, ?_⟩
    · simp only [coalesce]
      have hguard : ¬(¬(GET_ALLOC h (HDRP (PREV_BLKP h bp)) = 0) ∧
          ¬(GET_ALLOC h (HDRP (NEXT_BLKP h bp)) = 0)) := fun hc => hc.1 hpf
      rw [if_neg hguard, if_pos hpf, if_pos hnf]
      dsimp only
      rw [heq1, hPB1, heq2, hPB2, hsz2, hsz, hFT2, heq3, hPB3, heq4, hPB4, hNB4, heq6,
        hNB6, hs69, hFT6, heq7, heq8, hadd]
      rfl
    · exact GET_ALLOC_of_PACK _ _ _ _ g1 (by omega) (by omega)
    · rw [hPB9]
      have e : GET_ALLOC h9 (HDRP (bp - psz - ppsz)) =
          GET_ALLOC h (HDRP (bp - psz - ppsz)) := by
        unfold GET_ALLOC
        rw [f2]
      rw [e]
      exact hppa
    · rw [hN9]
      have e : GET_ALLOC h9 (HDRP (bp + sz + nsz)) =
          GET_ALLOC h (HDRP (bp + sz + nsz)) := by
        unfold GET_ALLOC
        rw [f3]
      rw [e]
      exact hnna

/-- C6 witness: the no-merge case on heapD (free block 1040 between two
allocated 32-byte blocks) and the merge-with-previous case on heapW6
(free 32-byte block 1048 behind the free 48-byte block 1000, merged into
an 80-byte block at 1000 whose neighbours are allocated). -/
theorem c6_coalesce_no_adjacent_free_witness :
    (coalesce heapD 1040 FUEL = some (heapD, 1040) ∧
     GET_ALLOC heapD (HDRP (PREV_BLKP heapD 1040)) = 1 ∧
     GET_ALLOC heapD (HDRP (NEXT_BLKP heapD 1040)) = 1 ∧
     GET_ALLOC heapD (HDRP 1040) = 0) ∧
    (coalesce heapW6 1048 FUEL = some (heapW6post, 1000) ∧
     GET_ALLOC heapW6post (HDRP 1000) = 0 ∧
     GET_ALLOC heapW6post (HDRP (PREV_BLKP heapW6post 1000)) = 1 ∧
     GET_ALLOC heapW6post (HDRP (NEXT_BLKP heapW6post 1000)) = 1) := by
  constructor
  · exact c6_coalesce_no_adjacent_free.1 heapD 1040 FUEL (by decide) (by decide)
      (by decide)
  · exact c6_coalesce_no_adjacent_free.2.1 heapW6 _ _ _ _ heapW6post 1048 48 32 16 FUEL
      rfl rfl rfl rfl (by decide) (by decide) (by decide) (by decide) (by decide)
      (by decide) (by decide) (by decide) rfl (by decide) rfl (by decide) rfl rfl
      rfl (by decide)

/-- C8.  add_free splices the block bp into the class list of
index_of size immediately before the first entry whose size is at least
size (at the tail when every entry is smaller, as sole entry when the
list is empty), and a size-ascending list stays size-ascending.  The walk
of the class list after the insertion is exactly the old walk with bp
inserted at the first position whose entry's size is ≥ size, and the new
walk is still ordered by non-decreasing block size.  The hypotheses state
that the walk of the class list terminates, that its nodes are ordered,
pairwise separated whole blocks inside the heap (24 bytes apart, beyond
the list-head area), and that bp is a separate block whose recorded
header size is the argument. -/
theorem c8_add_free_ordered_insert :
    ∀ (h h' : Heap) (bp size fuel F : Nat) (l : List Nat),
      walkList h F (GET h (freelists (index_of size))) = some l →
      l.Pairwise (fun a b => GET_SIZE h (HDRP a) ≤ GET_SIZE h (HDRP b)) →
      l.Pairwise apart →
      (∀ n ∈ l, 944 ≤ n ∧ apart bp n) →
      952 ≤ bp →
      GET_SIZE h (HDRP bp) = size →
      add_free h bp size fuel = some h' →
      walkList h' (F + 1) (GET h' (freelists (index_of size))) =
        some ((l.takeWhile fun n => decide (GET_SIZE h (HDRP n) < size)) ++
          bp :: (l.dropWhile fun n => decide (GET_SIZE h (HDRP n) < size))) ∧
      ((l.takeWhile fun n => decide (GET_SIZE h (HDRP n) < size)) ++
        bp :: (l.dropWhile fun n => decide (GET_SIZE h (HDRP n) < size))).Pairwise
        (fun a b => GET_SIZE h' (HDRP a) ≤ GET_SIZE h' (HDRP b)) := by
  intro h h' bp size fuel F l hw hsort hpair hmemA hbp hbsz hadd
  obtain ⟨hchain, hlen⟩ := walkList_succChain F h _ l hw
  have hnodup : l.Nodup := hpair.imp (fun hab => apart_ne hab)
  have hmem : ∀ n ∈ l, 944 ≤ n ∧ (bp + 24 ≤ n ∨ n + 24 ≤ bp) := hmemA
  have hpairs : ∀ a ∈ l, ∀ b ∈ l, a ≠ b → a + 24 ≤ b ∨ b + 24 ≤ a :=
    fun a ha b hb hne => hpair.forall (fun _ _ hxy => Or.symm hxy) ha hb hne
  have hb0 : bp ≠ 0 := by omega
  have hslot := freelists_range size
  have hW : WSIZE = 8 := rfl
  have hsplitl : (l.takeWhile fun n => decide (GET_SIZE h (HDRP n) < size)) ++
      (l.dropWhile fun n => decide (GET_SIZE h (HDRP n) < size)) = l :=
    List.takeWhile_append_dropWhile _ _
  simp only [add_free] at hadd
  simp only [hW] at hadd
  split at hadd
  · exact absurd hadd (by simp)
  rename_i pc pred curr hfind
  have hpc := add_find_eq h size l fuel (GET h (freelists (index_of size)))
    (GET h (freelists (index_of size))) (pred, curr) hchain hfind
  rw [Prod.mk.injEq] at hpc
  obtain ⟨hpred, hcurr⟩ := hpc
  by_cases hhead : GET h (freelists (index_of size)) = 0
  · -- possibility 1: the class list is empty
    rw [if_pos hhead] at hadd
    simp only [Option.some.injEq] at hadd
    subst hadd
    have hlnil : l = [] := by
      cases l with
      | nil => rfl
      | cons x t =>
        rw [hhead] at hchain
        obtain ⟨hx, hx0, _⟩ := hchain
        exact absurd hx.symm hx0
    subst hlnil
    simp only [List.takeWhile_nil, List.dropWhile_nil]
    constructor
    · have hslotval : GET (PUT (PUT (PUT h bp 0) (bp + 8) 0)
          (freelists (index_of size)) bp) (freelists (index_of size)) = bp :=
        GET_PUT_self _ _ _
      rw [hslotval]
      refine succChain_walkList [bp] _ bp (F + 1) ⟨rfl, hb0, ?_⟩ (by simp)
      rw [SUCC_eq, GET_PUT_ne _ _ _ _ (word_ne _ _ (by omega)), GET_PUT_self]
      rfl
    · simp
  · by_cases hcur0 : curr = 0
    · -- possibility 2: insertion at the tail
      rw [if_neg hhead, if_pos hcur0] at hadd
      simp only [Option.some.injEq] at hadd
      subst hadd
      have hdnil : (l.dropWhile fun n => decide (GET_SIZE h (HDRP n) < size)) = [] := by
        cases hdW : l.dropWhile fun n => decide (GET_SIZE h (HDRP n) < size) with
        | nil => rfl
        | cons c t2 =>
          rw [hdW] at hcurr
          have hcl : c ∈ l := by
            have hsub := List.dropWhile_sublist
              (p := fun n => decide (GET_SIZE h (HDRP n) < size)) (l := l)
            exact hsub.subset (hdW ▸ List.mem_cons_self c t2)
          have := (hmem c hcl).1
          simp only [List.headD_cons] at hcurr
          omega
      have htall : (l.takeWhile fun n => decide (GET_SIZE h (HDRP n) < size)) = l := by
        have := hsplitl
        rw [hdnil] at this
        simpa using this
      have hlne : l ≠ [] := by
        intro hl
        subst hl
        exact hhead hchain
      have hpredl : pred = l.getLastD (GET h (freelists (index_of size))) := by
        rw [hpred, htall]
      have hpmem : pred ∈ l := hpredl ▸ getLastD_mem l _ hlne
      obtain ⟨hp944, hpap⟩ := hmem pred hpmem
      have hslotval : GET (PUT (PUT (PUT h bp pred) (bp + 8) 0) (pred + 8) bp)
          (freelists (index_of size)) = GET h (freelists (index_of size)) := by
        rw [GET_PUT_ne _ _ _ _ (word_ne _ _ (by omega)),
          GET_PUT_ne _ _ _ _ (word_ne _ _ (by omega)),
          GET_PUT_ne _ _ _ _ (word_ne _ _ (by omega))]
      have hseg : succSeg (PUT (PUT (PUT h bp pred) (bp + 8) 0) (pred + 8) bp)
          (GET h (freelists (index_of size))) l bp := by
        refine succSeg_redirect l h _ _ 0 bp (GET h (freelists (index_of size)))
          hlne hchain hnodup ?_ ?_
        · intro n hn hne
          obtain ⟨hn944, hnap⟩ := hmem n hn
          have hnpred : n ≠ pred := hpredl ▸ hne
          have hnpap := hpairs n hn pred hpmem hnpred
          rw [SUCC_eq, SUCC_eq,
            GET_PUT_ne _ _ _ _ (word_ne _ _ (by omega)),
            GET_PUT_ne _ _ _ _ (word_ne _ _ (by omega)),
            GET_PUT_ne _ _ _ _ (word_ne _ _ (by omega))]
        · rw [← hpredl, SUCC_eq]
          exact GET_PUT_self _ _ _
      have hsuccbp : SUCC_BLKP (PUT (PUT (PUT h bp pred) (bp + 8) 0)
          (pred + 8) bp) bp = 0 := by
        rw [SUCC_eq, GET_PUT_ne _ _ _ _ (word_ne _ _ (by omega)), GET_PUT_self]
      have hszpres : ∀ x, x ∈ l ∨ x = bp →
          GET_SIZE (PUT (PUT (PUT h bp pred) (bp + 8) 0) (pred + 8) bp)
            (HDRP x) = GET_SIZE h (HDRP x) := by
        intro x hx
        apply GET_SIZE_congr
        rcases hx with hx | hx
        · obtain ⟨hx944, hxap⟩ := hmem x hx
          by_cases hxp : x = pred
          · subst hxp
            rw [HDRP_eq,
              GET_PUT_ne _ _ _ _ (word_ne _ _ (by omega)),
              GET_PUT_ne _ _ _ _ (word_ne _ _ (by omega)),
              GET_PUT_ne _ _ _ _ (word_ne _ _ (by omega))]
          · have hxpap := hpairs x hx pred hpmem hxp
            rw [HDRP_eq,
              GET_PUT_ne _ _ _ _ (word_ne _ _ (by omega)),
              GET_PUT_ne _ _ _ _ (word_ne _ _ (by omega)),
              GET_PUT_ne _ _ _ _ (word_ne _ _ (by omega))]
        · subst hx
          rw [HDRP_eq,
            GET_PUT_ne _ _ _ _ (word_ne _ _ (by omega)),
            GET_PUT_ne _ _ _ _ (word_ne _ _ (by omega)),
            GET_PUT_ne _ _ _ _ (word_ne _ _ (by omega))]
      rw [hdnil, htall]
      constructor
      · rw [hslotval]
        refine succChain_walkList (l ++ [bp]) _ _ (F + 1) ?_ (by simp; omega)
        exact (succSeg_append l [bp] _ _ 0).mpr ⟨bp, hseg, ⟨rfl, hb0, hsuccbp⟩⟩
      · have hbase : (l ++ [bp]).Pairwise
            (fun a b => GET_SIZE h (HDRP a) ≤ GET_SIZE h (HDRP b)) := by
          rw [List.pairwise_append]
          refine ⟨hsort, List.pairwise_singleton _ _, ?_⟩
          intro a ha b hb
          simp only [List.mem_singleton] at hb
          subst hb
          have ha' : a ∈ l.takeWhile fun n => decide (GET_SIZE h (HDRP n) < size) := by
            rw [htall]
            exact ha
          have hpa := List.mem_takeWhile_imp
            (p := fun n => decide (GET_SIZE h (HDRP n) < size)) ha'
          simp only [decide_eq_true_eq] at hpa
          omega
        refine hbase.imp_of_mem ?_
        intro a b ha hb hle
        have hma : a ∈ l ∨ a = bp := by
          rcases List.mem_append.mp ha with hx | hx
          · exact Or.inl hx
          · simp only [List.mem_singleton] at hx
            exact Or.inr hx
        have hmb : b ∈ l ∨ b = bp := by
          rcases List.mem_append.mp hb with hx | hx
          · exact Or.inl hx
          · simp only [List.mem_singleton] at hx
            exact Or.inr hx
        rw [hszpres a hma, hszpres b hmb]
        exact hle
    · -- the drop part is non-empty; name its head
      obtain ⟨c, t2, hdW⟩ : ∃ c t2,
          (l.dropWhile fun n => decide (GET_SIZE h (HDRP n) < size)) = c :: t2 := by
        cases hdW : l.dropWhile fun n => decide (GET_SIZE h (HDRP n) < size) with
        | nil =>
          rw [hdW] at hcurr
          simp only [List.headD_nil] at hcurr
          exact absurd hcurr hcur0
        | cons c t2 => exact ⟨c, t2, rfl⟩
      have hcurc : curr = c := by
        rw [hdW] at hcurr
        simpa using hcurr
      have hcl : c ∈ l := by
        have hsub := List.dropWhile_sublist
          (p := fun n => decide (GET_SIZE h (HDRP n) < size)) (l := l)
        exact hsub.subset (hdW ▸ List.mem_cons_self c t2)
      obtain ⟨hc944, hcap⟩ := hmem c hcl
      have hpcb : decide (GET_SIZE h (HDRP c) < size) = false :=
        dropWhile_head_false _ l c t2 hdW
      have hpcf : ¬ GET_SIZE h (HDRP c) < size := by
        simpa using hpcb
      by_cases hcureq : curr = GET h (freelists (index_of size))
      · -- possibility 3: insertion at the front
        rw [if_neg hhead, if_neg hcur0, if_pos hcureq] at hadd
        simp only [Option.some.injEq] at hadd
        subst hadd
        have htnil : (l.takeWhile fun n => decide (GET_SIZE h (HDRP n) < size)) = [] := by
          cases htW : l.takeWhile fun n => decide (GET_SIZE h (HDRP n) < size) with
          | nil => rfl
          | cons x t1 =>
            have hx1 : x ∈ l.takeWhile fun n => decide (GET_SIZE h (HDRP n) < size) :=
              htW ▸ List.mem_cons_self x t1
            have hchain2 : succSeg h (GET h (freelists (index_of size)))
                ((l.takeWhile fun n => decide (GET_SIZE h (HDRP n) < size)) ++
                  (l.dropWhile fun n => decide (GET_SIZE h (HDRP n) < size))) 0 := by
              rw [hsplitl]
              exact hchain
            obtain ⟨j, hseg1, hseg2⟩ := (succSeg_append _ _ h _ 0).mp hchain2
            rw [htW] at hseg1
            obtain ⟨hhx, _, _⟩ := hseg1
            rw [hdW] at hseg2
            obtain ⟨hjc, _, _⟩ := hseg2
            have hndapp : ((l.takeWhile fun n => decide (GET_SIZE h (HDRP n) < size)) ++
                (l.dropWhile fun n => decide (GET_SIZE h (HDRP n) < size))).Nodup := by
              rw [hsplitl]
              exact hnodup
            have hdisj := List.disjoint_of_nodup_append hndapp
            have hxc : x ≠ c := by
              intro hxc
              exact hdisj (htW ▸ List.mem_cons_self x t1)
                (hdW ▸ (hxc ▸ List.mem_cons_self c t2))
            exact absurd (by rw [← hhx, ← hcureq, hcurc]) hxc
        have hleq : l = c :: t2 := by
          rw [← hsplitl, htnil, hdW]
          rfl
        have hheadc : GET h (freelists (index_of size)) = c := by
          have hc := hchain
          rw [hleq] at hc
          exact hc.1
        have hslotval : GET (PUT (PUT (PUT (PUT h bp 0) (bp + 8) curr) curr bp)
            (freelists (index_of size)) bp) (freelists (index_of size)) = bp :=
          GET_PUT_self _ _ _
        have hsuccbp : SUCC_BLKP (PUT (PUT (PUT (PUT h bp 0) (bp + 8) curr) curr bp)
            (freelists (index_of size)) bp) bp = c := by
          rw [SUCC_eq, GET_PUT_ne _ _ _ _ (word_ne _ _ (by omega)),
            GET_PUT_ne _ _ _ _ (word_ne _ _ (by rw [hcurc]; omega)),
            GET_PUT_self]
          exact hcurc
        have hlseg : succSeg (PUT (PUT (PUT (PUT h bp 0) (bp + 8) curr) curr bp)
            (freelists (index_of size)) bp) c l 0 := by
          refine succSeg_congr l h _ c 0 (hheadc ▸ hchain) ?_
          intro n hn
          obtain ⟨hn944, hnap⟩ := hmem n hn
          by_cases hnc : n = curr
          · rw [SUCC_eq, SUCC_eq, GET_PUT_ne _ _ _ _ (word_ne _ _ (by omega)),
              GET_PUT_ne _ _ _ _ (word_ne _ _ (by rw [hnc]; omega)),
              GET_PUT_ne _ _ _ _ (word_ne _ _ (by omega)),
              GET_PUT_ne _ _ _ _ (word_ne _ _ (by omega))]
          · have hnc' : n ≠ c := by rw [← hcurc]; exact hnc
            have hncap := hpairs n hn c hcl hnc'
            rw [SUCC_eq, SUCC_eq, GET_PUT_ne _ _ _ _ (word_ne _ _ (by omega)),
              GET_PUT_ne _ _ _ _ (word_ne _ _ (by rw [hcurc]; omega)),
              GET_PUT_ne _ _ _ _ (word_ne _ _ (by omega)),
              GET_PUT_ne _ _ _ _ (word_ne _ _ (by omega))]
        have hszpres : ∀ x, x ∈ l ∨ x = bp →
            GET_SIZE (PUT (PUT (PUT (PUT h bp 0) (bp + 8) curr) curr bp)
              (freelists (index_of size)) bp) (HDRP x) = GET_SIZE h (HDRP x) := by
          intro x hx
          apply GET_SIZE_congr
          rcases hx with hx | hx
          · obtain ⟨hx944, hxap⟩ := hmem x hx
            by_cases hxc : x = curr
            · rw [HDRP_eq, GET_PUT_ne _ _ _ _ (word_ne _ _ (by omega)),
                GET_PUT_ne _ _ _ _ (word_ne _ _ (by rw [hxc]; omega)),
                GET_PUT_ne _ _ _ _ (word_ne _ _ (by omega)),
                GET_PUT_ne _ _ _ _ (word_ne _ _ (by omega))]
            · have hxc' : x ≠ c := by rw [← hcurc]; exact hxc
              have hxcap := hpairs x hx c hcl hxc'
              rw [HDRP_eq, GET_PUT_ne _ _ _ _ (word_ne _ _ (by omega)),
                GET_PUT_ne _ _ _ _ (word_ne _ _ (by rw [hcurc]; omega)),
                GET_PUT_ne _ _ _ _ (word_ne _ _ (by omega)),
                GET_PUT_ne _ _ _ _ (word_ne _ _ (by omega))]
          · subst hx
            rw [HDRP_eq, GET_PUT_ne _ _ _ _ (word_ne _ _ (by omega)),
              GET_PUT_ne _ _ _ _ (word_ne _ _ (by rw [hcurc]; omega)),
              GET_PUT_ne _ _ _ _ (word_ne _ _ (by omega)),
              GET_PUT_ne _ _ _ _ (word_ne _ _ (by omega))]
        rw [htnil, hdW]
        constructor
        · rw [hslotval]
          refine succChain_walkList (bp :: c :: t2) _ _ (F + 1) ?_ ?_
          · refine ⟨rfl, hb0, ?_⟩
            rw [hsuccbp]
            exact hleq ▸ hlseg
          · have hll : l.length ≤ F := hlen
            rw [hleq] at hll
            simp at hll ⊢
            omega
        · have hbase : (bp :: c :: t2).Pairwise
              (fun a b => GET_SIZE h (HDRP a) ≤ GET_SIZE h (HDRP b)) := by
            rw [List.pairwise_cons]
            constructor
            · intro b hb
              rcases List.mem_cons.mp hb with hb | hb
              · subst hb
                omega
              · have hsort2 : (c :: t2).Pairwise
                    (fun a b => GET_SIZE h (HDRP a) ≤ GET_SIZE h (HDRP b)) :=
                  hleq ▸ hsort
                have := (List.pairwise_cons.mp hsort2).1 b hb
                omega
            · exact hleq ▸ hsort
          refine hbase.imp_of_mem ?_
          intro a b ha hb hle
          have hma : a ∈ l ∨ a = bp := by
            rcases List.mem_cons.mp ha with hx | hx
            · exact Or.inr hx
            · exact Or.inl (hleq ▸ hx)
          have hmb : b ∈ l ∨ b = bp := by
            rcases List.mem_cons.mp hb with hx | hx
            · exact Or.inr hx
            · exact Or.inl (hleq ▸ hx)
          rw [hszpres a hma, hszpres b hmb]
          exact hle
      · -- possibility 4: insertion in the middle
        rw [if_neg hhead, if_neg hcur0, if_neg hcureq] at hadd
        simp only [Option.some.injEq] at hadd
        subst hadd
        have htne : (l.takeWhile fun n => decide (GET_SIZE h (HDRP n) < size)) ≠ [] := by
          intro htnil
          have hleq : l = c :: t2 := by
            rw [← hsplitl, htnil, hdW]
            rfl
          have hheadc : GET h (freelists (index_of size)) = c := by
            have hc := hchain
            rw [hleq] at hc
            exact hc.1
          exact hcureq (by rw [hcurc, hheadc])
        have hpredl : pred =
            (l.takeWhile fun n => decide (GET_SIZE h (HDRP n) < size)).getLastD
              (GET h (freelists (index_of size))) := hpred
        have hpmem1 : pred ∈ l.takeWhile fun n => decide (GET_SIZE h (HDRP n) < size) :=
          hpredl ▸ getLastD_mem _ _ htne
        have hpmem : pred ∈ l :=
          (List.takeWhile_sublist (p := fun n => decide (GET_SIZE h (HDRP n) < size))
            (l := l)).subset hpmem1
        obtain ⟨hp944, hpap⟩ := hmem pred hpmem
        have hchain2 : succSeg h (GET h (freelists (index_of size)))
            ((l.takeWhile fun n => decide (GET_SIZE h (HDRP n) < size)) ++
              (l.dropWhile fun n => decide (GET_SIZE h (HDRP n) < size))) 0 := by
          rw [hsplitl]
          exact hchain
        obtain ⟨j, hseg1, hseg2⟩ := (succSeg_append _ _ h _ 0).mp hchain2
        have hjc : j = c := by
          rw [hdW] at hseg2
          exact hseg2.1
        have hndapp : ((l.takeWhile fun n => decide (GET_SIZE h (HDRP n) < size)) ++
            (l.dropWhile fun n => decide (GET_SIZE h (HDRP n) < size))).Nodup := by
          rw [hsplitl]
          exact hnodup
        have hdisj := List.disjoint_of_nodup_append hndapp
        have hpredc : pred ≠ c := by
          intro hpredc
          exact hdisj hpmem1 (hdW ▸ (hpredc ▸ List.mem_cons_self c t2))
        have hpcap := hpairs pred hpmem c hcl hpredc
        have hndtake : (l.takeWhile fun n =>
            decide (GET_SIZE h (HDRP n) < size)).Nodup :=
          hnodup.sublist (List.takeWhile_sublist
            (p := fun n => decide (GET_SIZE h (HDRP n) < size)))
        have hseg1' : succSeg (PUT (PUT (PUT (PUT h bp pred) (bp + 8) curr) curr bp)
            (pred + 8) bp) (GET h (freelists (index_of size)))
            (l.takeWhile fun n => decide (GET_SIZE h (HDRP n) < size)) bp := by
          refine succSeg_redirect _ h _ _ j bp (GET h (freelists (index_of size)))
            htne hseg1 hndtake ?_ ?_
          · intro n hn hne
            have hnl : n ∈ l :=
              (List.takeWhile_sublist (p := fun n =>
                decide (GET_SIZE h (HDRP n) < size)) (l := l)).subset hn
            obtain ⟨hn944, hnap⟩ := hmem n hnl
            have hnpred : n ≠ pred := hpredl ▸ hne
            have hnpap := hpairs n hnl pred hpmem hnpred
            have hnc : n ≠ c := by
              intro hnc
              exact hdisj hn (hdW ▸ (hnc ▸ List.mem_cons_self c t2))
            have hncap := hpairs n hnl c hcl hnc
            rw [SUCC_eq, SUCC_eq,
              GET_PUT_ne _ _ _ _ (word_ne _ _ (by omega)),
              GET_PUT_ne _ _ _ _ (word_ne _ _ (by rw [hcurc]; omega)),
              GET_PUT_ne _ _ _ _ (word_ne _ _ (by omega)),
              GET_PUT_ne _ _ _ _ (word_ne _ _ (by omega))]
          · rw [← hpredl, SUCC_eq]
            exact GET_PUT_self _ _ _
        have hsuccbp : SUCC_BLKP (PUT (PUT (PUT (PUT h bp pred) (bp + 8) curr)
            curr bp) (pred + 8) bp) bp = c := by
          rw [SUCC_eq, GET_PUT_ne _ _ _ _ (word_ne _ _ (by omega)),
            GET_PUT_ne _ _ _ _ (word_ne _ _ (by rw [hcurc]; omega)),
            GET_PUT_self]
          exact hcurc
        have hseg2' : succSeg (PUT (PUT (PUT (PUT h bp pred) (bp + 8) curr)
            curr bp) (pred + 8) bp) c
            (l.dropWhile fun n => decide (GET_SIZE h (HDRP n) < size)) 0 := by
          refine succSeg_congr _ h _ c 0 (hjc ▸ hseg2) ?_
          intro n hn
          have hnl : n ∈ l :=
            (List.dropWhile_sublist (p := fun n =>
              decide (GET_SIZE h (HDRP n) < size)) (l := l)).subset hn
          obtain ⟨hn944, hnap⟩ := hmem n hnl
          have hnpred : n ≠ pred := by
            intro hnpred
            exact hdisj hpmem1 (hnpred ▸ hn)
          have hnpap := hpairs n hnl pred hpmem hnpred
          by_cases hnc : n = curr
          · rw [SUCC_eq, SUCC_eq,
              GET_PUT_ne _ _ _ _ (word_ne _ _ (by omega)),
              GET_PUT_ne _ _ _ _ (word_ne _ _ (by rw [hnc]; omega)),
              GET_PUT_ne _ _ _ _ (word_ne _ _ (by omega)),
              GET_PUT_ne _ _ _ _ (word_ne _ _ (by omega))]
          · have hnc' : n ≠ c := by rw [← hcurc]; exact hnc
            have hncap := hpairs n hnl c hcl hnc'
            rw [SUCC_eq, SUCC_eq,
              GET_PUT_ne _ _ _ _ (word_ne _ _ (by omega)),
              GET_PUT_ne _ _ _ _ (word_ne _ _ (by rw [hcurc]; omega)),
              GET_PUT_ne _ _ _ _ (word_ne _ _ (by omega)),
              GET_PUT_ne _ _ _ _ (word_ne _ _ (by omega))]
        have hslotval : GET (PUT (PUT (PUT (PUT h bp pred) (bp + 8) curr) curr bp)
            (pred + 8) bp) (freelists (index_of size)) =
            GET h (freelists (index_of size)) := by
          rw [GET_PUT_ne _ _ _ _ (word_ne _ _ (by omega)),
            GET_PUT_ne _ _ _ _ (word_ne _ _ (by rw [hcurc]; omega)),
            GET_PUT_ne _ _ _ _ (word_ne _ _ (by omega)),
            GET_PUT_ne _ _ _ _ (word_ne _ _ (by omega))]
        have hszpres : ∀ x, x ∈ l ∨ x = bp →
            GET_SIZE (PUT (PUT (PUT (PUT h bp pred) (bp + 8) curr) curr bp)
              (pred + 8) bp) (HDRP x) = GET_SIZE h (HDRP x) := by
          intro x hx
          apply GET_SIZE_congr
          rcases hx with hx | hx
          · obtain ⟨hx944, hxap⟩ := hmem x hx
            have hxpr : x = pred ∨ (x + 24 ≤ pred ∨ pred + 24 ≤ x) := by
              by_cases hxp : x = pred
              · exact Or.inl hxp
              · exact Or.inr (hpairs x hx pred hpmem hxp)
            have hxcr : x = c ∨ (x + 24 ≤ c ∨ c + 24 ≤ x) := by
              by_cases hxc : x = c
              · exact Or.inl hxc
              · exact Or.inr (hpairs x hx c hcl hxc)
            rw [HDRP_eq,
              GET_PUT_ne _ _ _ _ (word_ne _ _ (by omega)),
              GET_PUT_ne _ _ _ _ (word_ne _ _ (by rw [hcurc]; omega)),
              GET_PUT_ne _ _ _ _ (word_ne _ _ (by omega)),
              GET_PUT_ne _ _ _ _ (word_ne _ _ (by omega))]
          · subst hx
            rw [HDRP_eq,
              GET_PUT_ne _ _ _ _ (word_ne _ _ (by omega)),
              GET_PUT_ne _ _ _ _ (word_ne _ _ (by rw [hcurc]; omega)),
              GET_PUT_ne _ _ _ _ (word_ne _ _ (by omega)),
              GET_PUT_ne _ _ _ _ (word_ne _ _ (by omega))]
        constructor
        · rw [hslotval]
          refine succChain_walkList _ _ _ (F + 1) ?_ ?_
          · refine (succSeg_append _ _ _ _ 0).mpr ⟨bp, hseg1', ?_⟩
            refine ⟨rfl, hb0, ?_⟩
            rw [hsuccbp]
            exact hseg2'
          · have h1 : (l.takeWhile fun n => decide (GET_SIZE h (HDRP n) < size)).length +
                (l.dropWhile fun n => decide (GET_SIZE h (HDRP n) < size)).length =
                l.length := by
              rw [← List.length_append, hsplitl]
            simp only [List.length_append, List.length_cons]
            omega
        · have hbase : ((l.takeWhile fun n => decide (GET_SIZE h (HDRP n) < size)) ++
              bp :: (l.dropWhile fun n => decide (GET_SIZE h (HDRP n) < size))).Pairwise
              (fun a b => GET_SIZE h (HDRP a) ≤ GET_SIZE h (HDRP b)) := by
            rw [List.pairwise_append]
            refine ⟨hsort.sublist (List.takeWhile_sublist
              (p := fun n => decide (GET_SIZE h (HDRP n) < size))), ?_, ?_⟩
            · rw [List.pairwise_cons]
              constructor
              · intro b hb
                have hsort2 : (l.dropWhile fun n =>
                    decide (GET_SIZE h (HDRP n) < size)).Pairwise
                    (fun a b => GET_SIZE h (HDRP a) ≤ GET_SIZE h (HDRP b)) :=
                  hsort.sublist (List.dropWhile_sublist
                    (p := fun n => decide (GET_SIZE h (HDRP n) < size)))
                rw [hdW] at hsort2
                rw [hdW] at hb
                rcases List.mem_cons.mp hb with hb | hb
                · subst hb
                  omega
                · have := (List.pairwise_cons.mp hsort2).1 b hb
                  omega
              · exact hsort.sublist (List.dropWhile_sublist
                  (p := fun n => decide (GET_SIZE h (HDRP n) < size)))
            · intro a ha b hb
              have hpa := List.mem_takeWhile_imp
                (p := fun n => decide (GET_SIZE h (HDRP n) < size)) ha
              simp only [decide_eq_true_eq] at hpa
              rcases List.mem_cons.mp hb with hb | hb
              · subst hb
                omega
              · have hal : a ∈ l :=
                  (List.takeWhile_sublist (p := fun n =>
                    decide (GET_SIZE h (HDRP n) < size)) (l := l)).subset ha
                have hbl : b ∈ l :=
                  (List.dropWhile_sublist (p := fun n =>
                    decide (GET_SIZE h (HDRP n) < size)) (l := l)).subset hb
                have hsort2 : ((l.takeWhile fun n =>
                    decide (GET_SIZE h (HDRP n) < size)) ++
                    (l.dropWhile fun n => decide (GET_SIZE h (HDRP n) < size))).Pairwise
                    (fun a b => GET_SIZE h (HDRP a) ≤ GET_SIZE h (HDRP b)) := by
                  rw [hsplitl]
                  exact hsort
                exact (List.pairwise_append.mp hsort2).2.2 a ha b hb
          refine hbase.imp_of_mem ?_
          intro a b ha hb hle
          have hmx : ∀ x, x ∈ (l.takeWhile fun n =>
              decide (GET_SIZE h (HDRP n) < size)) ++
              bp :: (l.dropWhile fun n => decide (GET_SIZE h (HDRP n) < size)) →
              x ∈ l ∨ x = bp := by
            intro x hx
            rcases List.mem_append.mp hx with hx | hx
            · exact Or.inl ((List.takeWhile_sublist (p := fun n =>
                decide (GET_SIZE h (HDRP n) < size)) (l := l)).subset hx)
            · rcases List.mem_cons.mp hx with hx | hx
              · exact Or.inr hx
              · exact Or.inl ((List.dropWhile_sublist (p := fun n =>
                  decide (GET_SIZE h (HDRP n) < size)) (l := l)).subset hx)
          rw [hszpres a (hmx a ha), hszpres b (hmx b hb)]
          exact hle

/-- C8 witness: on heapW8, whose class-2 list is [1000 (size 40), 1100
(size 120)], inserting the free block 1200 of size 96 places it between
the two existing nodes and keeps the list size-ascending. -/
theorem c8_add_free_ordered_insert_witness :
    walkList heapW8 FUEL (GET heapW8 (freelists (index_of 96))) = some [1000, 1100] ∧
    add_free heapW8 1200 96 FUEL = some heapW8post ∧
    walkList heapW8post (FUEL + 1) (GET heapW8post (freelists (index_of 96))) =
      some [1000, 1200, 1100] ∧
    [1000, 1200, 1100].Pairwise
      (fun a b => GET_SIZE heapW8post (HDRP a) ≤ GET_SIZE heapW8post (HDRP b)) := by
  have hw : walkList heapW8 FUEL (GET heapW8 (freelists (index_of 96))) =
      some [1000, 1100] := by decide
  have hadd : add_free heapW8 1200 96 FUEL = some heapW8post := rfl
  have hmain := c8_add_free_ordered_insert heapW8 heapW8post 1200 96 FUEL FUEL
    [1000, 1100] hw (by decide) (by decide) (by decide) (by decide) (by decide) hadd
  have ht : ([1000, 1100].takeWhile fun n => decide (GET_SIZE heapW8 (HDRP n) < 96)) =
      [1000] := by decide
  have hd : ([1000, 1100].dropWhile fun n => decide (GET_SIZE heapW8 (HDRP n) < 96)) =
      [1100] := by decide
  rw [ht, hd] at hmain
  exact ⟨hw, hadd, hmain.1, hmain.2⟩

/-- C10 witness: on the freshly initialised heap0 the checker passes and
the accounting identity holds. -/
theorem c10_check_size_accounting_witness :
    (8 ∣ heap0.hsize) ∧ 0 < heap0.hsize ∧ mm_check heap0 FUEL = some true ∧
    (∃ (count count1 : Int) (pld fre : Nat),
      chk_lists heap0 FUEL LISTSIZE = some (some (count, fre)) ∧
      chk_phys heap0 FUEL heap_ptr count 0 0 0 = some (some (count1, pld, fre)) ∧
      fre + pld + (LISTSIZE + 2) * WSIZE = heap0.hsize) :=
  ⟨by decide, by decide, by decide,
    c10_check_size_accounting heap0 FUEL (by decide) (by decide) (by decide)⟩

end MM
